import Mathlib

/-!
Verification development for the LinkFinder-Mod repository: two converters
producing HAR 1.2 documents, `convert_csv.py` (CSV rows → HAR, streaming)
and `convert_xml.py` (Burp Suite XML items → HAR, in-memory).

The Python sources are shallowly embedded here.  All string algorithms are
re-implemented over `List Char` with structurally recursive functions so that
every definition evaluates by kernel reduction (`decide`/`rfl`).

Modelling conventions, stated once:
* Python `str` is modelled by Lean `String`; `str.strip`/`split`/`replace`/
  `lower`/`upper` are modelled character-exactly for ASCII text (the Python
  originals also handle non-ASCII case mappings and whitespace, which no
  claim concerns).
* `None`-able Python values are `Option`; Python truthiness of a string is
  "non-empty".
* Code paths that raise exceptions are modelled by explicit result
  constructors (`RespParse.raises`, `ItemResult.errored`), matching where the
  sources' try/except blocks catch them.
* `base64` decoding (`decode_base64_safe`) happens strictly upstream of every
  parsed field; the embedding takes the already-decoded request/response text
  as input, as the claims quantify over the decoded text.
* the `int(float(clean))` path of `safe_int` is modelled with IEEE-754
  binary64 semantics: the decimal literal is rounded to the nearest double
  (ties to even, subnormals and overflow-to-infinity included) before
  truncation.  Only `safe_float` — which feeds the CSV timing fields, about
  which no claim speaks — keeps an exact-rational idealization.
-/

/-! ## Python string primitives -/

/-- Python whitespace characters recognised by `str.strip` (ASCII subset). -/
def pyIsSpace (c : Char) : Bool :=
  c = ' ' || c = '\t' || c = '\n' || c = '\r' || c = '\x0b' || c = '\x0c'

/-- Python `str.strip()` on a character list. -/
def stripL (cs : List Char) : List Char :=
  (((cs.dropWhile pyIsSpace).reverse.dropWhile pyIsSpace)).reverse

/-- Python `str.strip()`. -/
def pyStrip (s : String) : String :=
  ⟨stripL s.data⟩

/-- Does `sep` occur at the head of `s`? (helper for the split functions) -/
def leadsWith : List Char → List Char → Bool
  | [], _ => true
  | _ :: _, [] => false
  | a :: as, b :: bs => a = b && leadsWith as bs

/-- Split at the first occurrence of `sep`: Python `s.split(sep, 1)` when the
separator occurs, returning the parts before and after it. -/
def findSplit (sep : List Char) : List Char → Option (List Char × List Char)
  | [] => if sep.isEmpty then some ([], []) else none
  | c :: cs =>
    if leadsWith sep (c :: cs) then some ([], (c :: cs).drop sep.length)
    else (findSplit sep cs).map (fun p => (c :: p.1, p.2))

/-- Python `s.split(sep)` (all occurrences, non-overlapping, leftmost;
`skip` counts separator characters still to be consumed). -/
def pySplitAux (sep : List Char) : List Char → List Char → Nat → List (List Char)
  | [], acc, _ => [acc.reverse]
  | _ :: cs, acc, k+1 => pySplitAux sep cs acc k
  | c :: cs, acc, 0 =>
    if leadsWith sep (c :: cs) then acc.reverse :: pySplitAux sep cs [] (sep.length - 1)
    else pySplitAux sep cs (c :: acc) 0

/-- Python `s.split(sep)` on character lists (`sep` is never empty at the
call sites; Python raises on an empty separator). -/
def pySplitL (sep s : List Char) : List (List Char) :=
  if sep.isEmpty then [s] else pySplitAux sep s [] 0

/-- Python `s.split(sep)` on strings. -/
def pySplitStr (s sep : String) : List String :=
  (pySplitL sep.data s.data).map (fun l => ⟨l⟩)

/-- Join a list of strings with a separator (used to model Python
`sep.join` and the tail re-assembly of `split(sep, maxsplit)`). -/
def joinWith (sep : String) (l : List String) : String :=
  ⟨List.intercalate sep.data (l.map String.data)⟩

/-- Python `s.split(sep, maxsplit)`: the first `m` splits happen, the rest of
the string is kept whole (re-assembled from the full split, which is the same
string because splitting is non-overlapping and leftmost). -/
def pySplitMaxStr (s sep : String) (m : Nat) : List String :=
  let ps := pySplitStr s sep
  if ps.length ≤ m + 1 then ps else ps.take m ++ [joinWith sep (ps.drop m)]

/-- Split at the first occurrence of `sep`, on strings:
Python `s.split(sep, 1)` restricted to the case where `sep` occurs
(`none` models "separator absent"). -/
def findSplitStr (s sep : String) : Option (String × String) :=
  (findSplit sep.data s.data).map (fun p => (⟨p.1⟩, ⟨p.2⟩))

/-- Python `sub in s` (substring containment). -/
def pyContains (s sub : String) : Bool :=
  (findSplit sub.data s.data).isSome

/-- Python `s.replace(old, '')` for a single character `old`. -/
def removeAll (cs : List Char) (c : Char) : List Char :=
  cs.filter (· != c)

/-- Python `s.lower()` (ASCII). -/
def pyLower (s : String) : String :=
  ⟨s.data.map Char.toLower⟩

/-- Python `s.upper()` (ASCII). -/
def pyUpper (s : String) : String :=
  ⟨s.data.map Char.toUpper⟩

/-- Python `a or b` for strings: `b` when `a` is empty (falsy). -/
def pyOrStr (a b : String) : String :=
  if a = "" then b else a

/-- Numeric value of a digit list (most significant first). -/
def natOfDigits (cs : List Char) : Nat :=
  cs.foldl (fun n c => n * 10 + (c.toNat - '0'.toNat)) 0

/-- Python `len(s.encode('utf-8'))`: UTF-8 byte length. -/
def utf8Len (s : String) : Nat :=
  s.data.foldl (fun n c => n + c.utf8Size) 0

/-! ### Basic lemmas about the primitives -/

theorem leadsWith_append (sep : List Char) :
    ∀ s : List Char, leadsWith sep s = true → s = sep ++ s.drop sep.length := by
  induction sep with
  | nil => intro s _; simp
  | cons a as ih =>
    intro s h
    cases s with
    | nil => simp [leadsWith] at h
    | cons b bs =>
      simp only [leadsWith, Bool.and_eq_true, decide_eq_true_eq] at h
      obtain ⟨rfl, h2⟩ := h
      have := ih bs h2
      simpa [List.drop] using congrArg (a :: ·) this

theorem findSplit_eq (sep : List Char) :
    ∀ s a b : List Char, findSplit sep s = some (a, b) → s = a ++ sep ++ b := by
  intro s
  induction s with
  | nil =>
    intro a b h
    by_cases hsep : sep.isEmpty
    · simp only [findSplit, hsep, if_true, Option.some.injEq, Prod.mk.injEq] at h
      obtain ⟨rfl, rfl⟩ := h
      simp [List.isEmpty_iff.mp hsep]
    · simp [findSplit, hsep] at h
  | cons c cs ih =>
    intro a b h
    simp only [findSplit] at h
    by_cases hl : leadsWith sep (c :: cs)
    · simp only [hl, if_true, Option.some.injEq, Prod.mk.injEq] at h
      obtain ⟨rfl, rfl⟩ := h
      simpa using leadsWith_append sep (c :: cs) hl
    · simp only [hl, if_false, Bool.false_eq_true] at h
      cases hfs : findSplit sep cs with
      | none => rw [hfs] at h; simp at h
      | some p =>
        rw [hfs] at h
        simp only [Option.map_some', Option.some.injEq, Prod.mk.injEq] at h
        obtain ⟨rfl, rfl⟩ := h
        have := ih p.1 p.2 hfs
        simp [this]

theorem dropWhile_idem (p : Char → Bool) (l : List Char) :
    (l.dropWhile p).dropWhile p = l.dropWhile p := by
  induction l with
  | nil => rfl
  | cons c t ih =>
    by_cases hc : p c
    · simp [List.dropWhile_cons, hc, ih]
    · simp [List.dropWhile_cons, hc]

theorem head_dropWhile_not (p : Char → Bool) (l : List Char) :
    ∀ c ∈ (l.dropWhile p).head?, p c = false := by
  induction l with
  | nil => intro c h; simp at h
  | cons a t ih =>
    intro c h
    by_cases ha : p a
    · rw [List.dropWhile_cons_of_pos ha] at h; exact ih c h
    · rw [List.dropWhile_cons_of_neg (by simpa using ha)] at h
      simp only [List.head?_cons, Option.mem_def, Option.some.injEq] at h
      subst h; simpa using ha

theorem dropWhile_of_head_not (p : Char → Bool) (l : List Char)
    (h : ∀ c ∈ l.head?, p c = false) : l.dropWhile p = l := by
  cases l with
  | nil => rfl
  | cons a t =>
    have : p a = false := h a (by simp)
    simp [List.dropWhile_cons, this]

theorem dropWhile_getLast? (p : Char → Bool) (l : List Char)
    (h : l.dropWhile p ≠ []) : (l.dropWhile p).getLast? = l.getLast? := by
  induction l with
  | nil => simp at h
  | cons a t ih =>
    by_cases ha : p a
    · rw [List.dropWhile_cons_of_pos ha] at h ⊢
      rw [ih h]
      have ht : t ≠ [] := by
        intro he; rw [he] at h; simp at h
      cases t with
      | nil => exact absurd rfl ht
      | cons b u => simp [List.getLast?_cons_cons]
    · rw [List.dropWhile_cons_of_neg (by simpa using ha)]

theorem stripL_idem (cs : List Char) : stripL (stripL cs) = stripL cs := by
  unfold stripL
  set A := cs.dropWhile pyIsSpace with hA
  set B := A.reverse.dropWhile pyIsSpace with hB
  by_cases hBe : B = []
  · simp [hBe]
  · have hAne : A ≠ [] := by
      intro he
      rw [he] at hB
      simp at hB
      exact hBe hB
    -- head of B.reverse = last of B = last of A.reverse = head of A, which fails pyIsSpace
    have hlast : B.getLast? = A.reverse.getLast? := dropWhile_getLast? _ _ (hB ▸ hBe)
    have hAhead : ∀ c ∈ A.head?, pyIsSpace c = false := head_dropWhile_not _ _
    have hBrevHead : ∀ c ∈ B.reverse.head?, pyIsSpace c = false := by
      intro c hc
      rw [List.head?_reverse, hlast, List.getLast?_reverse] at hc
      exact hAhead c hc
    rw [dropWhile_of_head_not _ _ hBrevHead, List.reverse_reverse]
    have : B.dropWhile pyIsSpace = B := by rw [hB]; exact dropWhile_idem _ _
    rw [this]

theorem pyStrip_idem (s : String) : pyStrip (pyStrip s) = pyStrip s := by
  simp [pyStrip, stripL_idem]

theorem utf8Len_foldl_ge (cs : List Char) : ∀ n : Nat, n ≤ cs.foldl (fun n c => n + c.utf8Size) 0 + n := by
  intro n; omega

theorem utf8Len_eq_zero {s : String} : utf8Len s = 0 ↔ s = "" := by
  constructor
  · intro h
    cases s with
    | mk data =>
      cases data with
      | nil => rfl
      | cons c cs =>
        exfalso
        unfold utf8Len at h
        simp only [List.foldl_cons] at h
        have hmono : ∀ (l : List Char) (n : Nat), n ≤ l.foldl (fun n c => n + c.utf8Size) n := by
          intro l
          induction l with
          | nil => intro n; simp
          | cons d ds ih =>
            intro n
            simp only [List.foldl_cons]
            exact le_trans (Nat.le_add_right n d.utf8Size) (ih _)
        have h1 : 0 + c.utf8Size ≤ cs.foldl (fun n c => n + c.utf8Size) (0 + c.utf8Size) := hmono cs _
        have h2 : 0 < c.utf8Size := Char.utf8Size_pos c
        omega
  · intro h; subst h; rfl

/-! ## Shared HAR data model pieces -/

/-- An HTTP header, `{"name": ..., "value": ...}`. -/
structure Header where
  name : String
  value : String
deriving DecidableEq

/-- A cookie, `{"name": ..., "value": ...}`. -/
structure Cookie where
  name : String
  value : String
deriving DecidableEq

/-- A query-string parameter, `{"name": ..., "value": ...}`. -/
structure QueryParam where
  name : String
  value : String
deriving DecidableEq

/-! ## convert_csv.py : helper functions -/

/-- `parse_http_headers` inner loop over `lines[1:]`: stop at the first line
that is blank after stripping; for each line containing `':'`, split on the
first colon and trim both sides (`src/convert_csv.py` lines 27-46). -/
def csvHeaderLoop : List String → List Header
  | [] => []
  | l :: ls =>
    if pyStrip l = "" then []
    else if l.data.contains ':' then
      match findSplitStr l ":" with
      | some (n, v) => ⟨pyStrip n, pyStrip v⟩ :: csvHeaderLoop ls
      | none => csvHeaderLoop ls   -- unreachable: the line contains ':'
    else csvHeaderLoop ls

/-- `parse_http_headers(raw_text)` of `src/convert_csv.py`.  The guard
`if not raw_text` returns `[]`; lines are split on CRLF only (no bare-LF
fallback exists in this function). -/
def parse_http_headers (raw : String) : List Header :=
  if raw = "" then []
  else csvHeaderLoop ((pySplitStr raw "\r\n").drop 1)

/-- Per-segment step of `parse_cookies_from_headers`: every `';'`-separated
piece containing `'='` becomes one cookie (split on the first `'='`, both
sides trimmed). -/
def csvCookieSegs : List String → List Cookie
  | [] => []
  | seg :: rest =>
    (if seg.data.contains '=' then
      match findSplitStr seg "=" with
      | some (n, v) => [⟨pyStrip n, pyStrip v⟩]
      | none => []   -- unreachable: the segment contains '='
    else []) ++ csvCookieSegs rest

/-- `parse_cookies_from_headers(headers)` of `src/convert_csv.py` lines 48-62:
matches headers named `cookie` or `set-cookie` case-insensitively and emits
one cookie per `'='`-containing `';'`-segment of the value. -/
def parse_cookies_from_headers : List Header → List Cookie
  | [] => []
  | h :: t =>
    (if pyLower h.name = "cookie" ∨ pyLower h.name = "set-cookie"
     then csvCookieSegs (pySplitStr h.value ";") else []) ++ parse_cookies_from_headers t

/-- First line of a raw message: split on CRLF when present, else on LF
(`src/convert_csv.py` lines 69 and 85). -/
def csvFirstLine (raw : String) : String :=
  if pyContains raw "\r\n" then (pySplitStr raw "\r\n").headD ""
  else (pySplitStr raw "\n").headD ""

/-- `extract_http_version(raw_text)` of `src/convert_csv.py` lines 64-78. -/
def extract_http_version (raw : String) : String :=
  if raw = "" then "HTTP/1.1"
  else
    let first := csvFirstLine raw
    if pyContains first "HTTP/2" then "HTTP/2"
    else if pyContains first "HTTP/1.0" then "HTTP/1.0"
    else if pyContains first "HTTP/1.1" then "HTTP/1.1"
    else "HTTP/1.1"

/-- `extract_status_text(raw_response)` of `src/convert_csv.py` lines 80-91:
third token of `first.split(' ', 2)`, stripped; `""` otherwise. -/
def extract_status_text (raw : String) : String :=
  if raw = "" then ""
  else
    match pySplitMaxStr (csvFirstLine raw) " " 2 with
    | [_, _, st] => pyStrip st
    | _ => ""

/-- `extract_body(raw_text)` of `src/convert_csv.py` lines 93-104: everything
after the first `"\r\n\r\n"`, else after the first `"\n\n"`, else `""`. -/
def extract_body (raw : String) : String :=
  if raw = "" then ""
  else
    match findSplit "\r\n\r\n".data raw.data with
    | some (_, rest) => ⟨rest⟩
    | none =>
      match findSplit "\n\n".data raw.data with
      | some (_, rest) => ⟨rest⟩
      | none => ""

/-- Python `urllib.parse.parse_qsl(qs, keep_blank_values=True)` without
percent-decoding (`unquote` is not modelled; no claim concerns it):
`'&'`-separated segments, empty segments dropped, `'+'` replaced by space,
segments without `'='` kept with an empty value. -/
def parseQsl (qs : String) : List (String × String) :=
  (pySplitStr qs "&").filterMap fun nv =>
    if nv = "" then none
    else
      let plus := fun (s : String) => (⟨s.data.map (fun c => if c = '+' then ' ' else c)⟩ : String)
      match findSplitStr nv "=" with
      | some (n, v) => some (plus n, plus v)
      | none => some (plus nv, "")

/-- Keys in first-occurrence order (Python dict insertion order used by
`parse_qs`). -/
def firstKeysAux : List String → List String → List String
  | [], _ => []
  | k :: rest, seen =>
    if seen.contains k then firstKeysAux rest seen
    else k :: firstKeysAux rest (k :: seen)

/-- `extract_query_string(url)` of `src/convert_csv.py` lines 106-119:
`urlparse` keeps the text between the first `'?'` (after removing the
fragment introduced by the first `'#'`) and the end; `parse_qs` groups
values by key in first-occurrence key order, and the result is flattened. -/
def extract_query_string (url : String) : List QueryParam :=
  if url = "" then []
  else
    let noFrag := (pySplitStr url "#").headD ""
    let query := match findSplitStr noFrag "?" with
      | some (_, q) => q
      | none => ""
    let pairs := parseQsl query
    let keys := firstKeysAux (pairs.map (·.1)) []
    keys.flatMap fun k => (pairs.filter (·.1 == k)).map fun p => ⟨k, p.2⟩

/-- `calculate_headers_size(headers)` of `src/convert_csv.py` lines 121-131:
`-1` for an empty list, else `len(name) + len(value) + 4` summed (Python
`len` counts code points). -/
def calculate_headers_size (headers : List Header) : Int :=
  if headers.isEmpty then -1
  else (headers.foldl (fun n h => n + h.name.data.length + h.value.data.length + 4) 0 : Nat)

/-- Round `n / d` to the nearest integer, ties to even (`d > 0`). -/
def roundHalfEven (n d : Nat) : Nat :=
  let a := n / d
  let r := n % d
  if 2 * r < d then a
  else if d < 2 * r then a + 1
  else if a % 2 = 0 then a else a + 1

/-- Fuel-driven binary logarithm (structural recursion, so that concrete
evaluations reduce in the kernel). -/
def log2Aux : Nat → Nat → Nat
  | 0, _ => 0
  | fuel + 1, n => if 2 ≤ n then log2Aux fuel (n / 2) + 1 else 0

/-- `⌊log2 n⌋` (0 for `n ≤ 1`), kernel-reducible. -/
def natLog2 (n : Nat) : Nat :=
  log2Aux n n

/-- `⌊log2 (n / d)⌋` for `n, d ≥ 1`. -/
def ratFloorLog2 (n d : Nat) : Int :=
  if d ≤ n then ((natLog2 (n / d)) : Int)
  else
    let k0 := natLog2 (d / n)
    if d ≤ n * 2 ^ k0 then -(k0 : Int) else -((k0 : Int) + 1)

/-- Round the non-negative rational `n / d` (`d > 0`) to the IEEE-754
binary64 grid, round-to-nearest ties-to-even, subnormals included:
`some (M, t)` is the value `M · 2^t`; `none` is overflow to infinity
(magnitude `2^1024` or more after rounding), on which Python's `int()`
raises `OverflowError`. -/
def roundFloat64 (n d : Nat) : Option (Nat × Int) :=
  if n = 0 then some (0, 0)
  else
    let E := ratFloorLog2 n d
    let t := (if E < -1022 then -1022 else E) - 52
    let M := if t ≤ 0 then roundHalfEven (n * 2 ^ (-t).toNat) d
             else roundHalfEven n (d * 2 ^ t.toNat)
    if 0 ≤ t then
      if M * 2 ^ t.toNat < 2 ^ 1024 then some (M, t) else none
    else some (M, t)

/-- Truncation toward zero of the non-negative value `M · 2^t`. -/
def truncPow2 (M : Nat) (t : Int) : Nat :=
  if 0 ≤ t then M * 2 ^ t.toNat else M / 2 ^ (-t).toNat

/-- Decimal parse of the unsigned part of a `float()` literal as reachable
from `safe_int` (the `isdigit` gate excludes exponents, `inf` and `nan`):
digits, at most one decimal point, at least one digit.  The payload is the
exact decimal value as numerator and denominator; `none` models `float()`
raising `ValueError`. -/
def floatBody (r : List Char) : Option (Nat × Nat) :=
  let ip := r.takeWhile Char.isDigit
  let rest := r.dropWhile Char.isDigit
  match rest with
  | [] => if ip.isEmpty then none else some (natOfDigits ip, 1)
  | c :: fp =>
    if c = '.' then
      if (!(ip.isEmpty && fp.isEmpty)) && fp.all Char.isDigit then
        some (natOfDigits (ip ++ fp), 10 ^ fp.length)
      else none
    else none

/-- `int(float(s))` on the cleaned string: parse the optional sign and the
decimal (`floatBody`), round it to the nearest binary64 (`roundFloat64` —
CPython's `float()` is correctly rounded), truncate toward zero.  `none`
models an exception: `ValueError` from `float()` on a malformed literal, or
`OverflowError` from `int()` on an infinite float. -/
def pyFloatTruncL (l : List Char) : Option Int :=
  match l with
  | c :: r =>
    if c = '-' then
      (floatBody r).bind fun p =>
        (roundFloat64 p.1 p.2).map fun q => -((truncPow2 q.1 q.2 : Nat) : Int)
    else if c = '+' then
      (floatBody r).bind fun p =>
        (roundFloat64 p.1 p.2).map fun q => ((truncPow2 q.1 q.2 : Nat) : Int)
    else
      (floatBody (c :: r)).bind fun p =>
        (roundFloat64 p.1 p.2).map fun q => ((truncPow2 q.1 q.2 : Nat) : Int)
  | [] => none

/-- Python `s.isdigit()` (ASCII): non-empty and all decimal digits. -/
def isdigitL (cs : List Char) : Bool :=
  !cs.isEmpty && cs.all Char.isDigit

/-- The cleaned string of `safe_int`/`safe_float`:
`str(value).strip().replace(',', '')`. -/
def cleanOf (s : String) : List Char :=
  removeAll (stripL s.data) ','

/-- `safe_int(value, default)` of `src/convert_csv.py` lines 133-143.
`value : Option String` models the Python argument (`None` or a CSV string
field). -/
def safe_int (value : Option String) (default : Int) : Int :=
  match value with
  | none => default
  | some s =>
    if s = "" then default
    else
      let clean := cleanOf s
      if isdigitL (removeAll (removeAll clean '-') '.') then
        match pyFloatTruncL clean with
        | some n => n
        | none => default   -- float() raised; swallowed by the bare except
      else default

/-- Exact-rational model of `float(clean)` for `safe_float`, which feeds
only the CSV timing fields (no claim concerns them): optional sign, digits,
at most one decimal point.  Exponent forms, `inf`, `nan` and IEEE rounding
are not modelled here. -/
def floatRatBody (r : List Char) : Option Rat :=
  let ip := r.takeWhile Char.isDigit
  let rest := r.dropWhile Char.isDigit
  match rest with
  | [] => if ip.isEmpty then none else some ((natOfDigits ip : Rat))
  | c :: fp =>
    if c = '.' then
      if (!(ip.isEmpty && fp.isEmpty)) && fp.all Char.isDigit then
        some ((natOfDigits ip : Rat) + (natOfDigits fp : Rat) / ((10 : Rat) ^ fp.length))
      else none
    else none

/-- `float(clean)` (see `floatRatBody`). -/
def pyFloatRatL (l : List Char) : Option Rat :=
  match l with
  | c :: r =>
    if c = '-' then (floatRatBody r).map (fun q => -q)
    else if c = '+' then floatRatBody r
    else floatRatBody (c :: r)
  | [] => none

/-- `safe_float(value, default)` of `src/convert_csv.py` lines 145-154. -/
def safe_float (value : Option String) (default : Rat) : Rat :=
  match value with
  | none => default
  | some s =>
    if s = "" then default
    else
      match pyFloatRatL (cleanOf s) with
      | some q => q
      | none => default

/-- First `Content-Type` header loop of `get_mime_type_from_headers`
(`src/convert_csv.py` lines 177-184): value of the first case-insensitive
match, truncated at the first `';'` and stripped; `""` when there is none. -/
def get_mime_type_from_headers : List Header → String
  | [] => ""
  | h :: t =>
    if pyLower h.name = "content-type" then
      pyStrip ((pySplitStr h.value ";").headD "")
    else get_mime_type_from_headers t

/-! ## convert_csv.py : HAR entry structures and the per-row builder -/

/-- A CSV row whose stored values are all strings.  `csv.DictReader` also
produces rows with `None` values — a data row shorter than the header is
padded with `restval = None` — and those take a different, raising path
through the loop body; they are modelled by `RawRow` below, of which `Row`
is the image of the non-raising rows.  A column that is absent from the
header has no key at all (`row.get` then returns its default).  The
`Request` and `Response` values are taken post-`decode_base64_safe` (see the
header comment). -/
def Row := List (String × String)

/-- Python `row.get(k, d)`. -/
def Row.get (r : Row) (k d : String) : String :=
  match (List.find? (fun p => p.1 == k) r) with
  | some p => p.2
  | none => d

/-- Python `row.get(k)` (default `None`). -/
def Row.get? (r : Row) (k : String) : Option String :=
  (List.find? (fun p => p.1 == k) r).map (·.2)

/-- `postData` block of the CSV pipeline (`params` is always the constant
empty list, line 270). -/
structure CsvPostData where
  mimeType : String
  text : String
  params : List QueryParam
deriving DecidableEq

/-- HAR request object built by the CSV pipeline (lines 253-271). -/
structure CsvRequest where
  method : String
  url : String
  httpVersion : String
  cookies : List Cookie
  headers : List Header
  queryString : List QueryParam
  headersSize : Int
  bodySize : Int
  postData : Option CsvPostData
deriving DecidableEq

/-- The `content` block of the CSV response (lines 283-288); `encoding` is the
constant `"utf-8"`. -/
structure CsvContent where
  size : Int
  mimeType : String
  text : String
  encoding : String
deriving DecidableEq

/-- HAR response object built by the CSV pipeline (lines 277-292). -/
structure CsvResponse where
  status : Int
  statusText : String
  httpVersion : String
  cookies : List Cookie
  headers : List Header
  content : CsvContent
  redirectURL : String
  headersSize : Int
  bodySize : Int
deriving DecidableEq

/-- `calculate_timings(row)` result (lines 156-175); exact rationals model the
Python floats. -/
structure CsvTimings where
  blocked : Rat
  dns : Rat
  connect : Rat
  send : Rat
  wait : Rat
  receive : Rat
  ssl : Rat
deriving DecidableEq

/-- One HAR entry of the CSV pipeline (lines 299-308).  The `cache` field is
the constant empty object and the optional `_csvOriginalData` passthrough
copies the row verbatim; neither is modelled (no claim concerns them). -/
structure CsvEntry where
  startedDateTime : String
  time : Rat
  request : CsvRequest
  response : CsvResponse
  timings : CsvTimings
  serverIPAddress : String
  connection : String
deriving DecidableEq

/-- `calculate_timings(row)` of `src/convert_csv.py` lines 156-175. -/
def calculate_timings (row : Row) : CsvTimings :=
  let start := safe_float (Row.get? row "Start response timer") 0
  let stop := safe_float (Row.get? row "End response timer") 0
  let wait_time := if start ≠ 0 ∧ stop ≠ 0 then max 0 (stop - start) else 0
  let send := safe_float (Row.get? row "Send time") 0
  let receive := safe_float (Row.get? row "Receive time") 0
  { blocked := -1, dns := -1, connect := -1,
    send := send, wait := wait_time, receive := receive, ssl := -1 }

/-- `sum(v for v in timings.values() if v > 0)` (line 296); `values()`
iterates in dict insertion order. -/
def csvTotalTime (t : CsvTimings) : Rat :=
  (([t.blocked, t.dns, t.connect, t.send, t.wait, t.receive, t.ssl].filter
    (fun v => 0 < v)).foldl (· + ·) 0)

/-- `method = row.get('Method', 'GET').strip() or 'GET'` (line 250). -/
def csvMethod (row : Row) : String :=
  pyOrStr (pyStrip (Row.get row "Method" "GET")) "GET"

/-- `url = row.get('URL', '').strip()` (line 251). -/
def csvUrl (row : Row) : String :=
  pyStrip (Row.get row "URL" "")

/-- Extracted request body, `extract_body(raw_req)` (line 243). -/
def csvReqBody (row : Row) : String :=
  extract_body (Row.get row "Request" "")

/-- Extracted response body, `extract_body(raw_res)` (line 244). -/
def csvResBody (row : Row) : String :=
  extract_body (Row.get row "Response" "")

/-- `content_size = safe_int(row.get('Length'), -1)` (line 275). -/
def csvContentSize (row : Row) : Int :=
  safe_int (Row.get? row "Length") (-1)

/-- The loop body of `convert_csv_to_har_stream` (`src/convert_csv.py` lines
228-319) for one row whose values are strings: builds the HAR entry that is
serialized for that row.  `now` models `datetime.now().isoformat()` (the
default for a missing `Time` column).  On such rows none of the translated
operations raise; rows carrying `DictReader`'s `None` padding can raise
`AttributeError` at the `.strip()` call sites and are handled by
`processRawRow` below. -/
def processRow (now : String) (row : Row) : CsvEntry :=
  let raw_req := Row.get row "Request" ""
  let raw_res := Row.get row "Response" ""
  let req_headers := parse_http_headers raw_req
  let res_headers := parse_http_headers raw_res
  let req_cookies := parse_cookies_from_headers req_headers
  let res_cookies := parse_cookies_from_headers res_headers
  let req_body := extract_body raw_req
  let res_body := extract_body raw_res
  let response_mime := pyOrStr (get_mime_type_from_headers res_headers)
    (pyStrip (Row.get row "MIME type" ""))
  let method := csvMethod row
  let url := csvUrl row
  let request_obj : CsvRequest := {
    method := method
    url := url
    httpVersion := extract_http_version raw_req
    cookies := req_cookies
    headers := req_headers
    queryString := extract_query_string url
    headersSize := calculate_headers_size req_headers
    bodySize := if req_body ≠ "" then (utf8Len req_body : Int) else 0
    postData :=
      if req_body ≠ "" ∧ (["POST", "PUT", "PATCH", "DELETE"].contains (pyUpper method)) then
        some { mimeType := pyOrStr (get_mime_type_from_headers req_headers) "application/octet-stream"
               text := req_body
               params := [] }
      else none }
  let status_code := safe_int (Row.get? row "Status code") 0
  let content_size := csvContentSize row
  let response_obj : CsvResponse := {
    status := status_code
    statusText := extract_status_text raw_res
    httpVersion := if raw_res ≠ "" then extract_http_version raw_res else extract_http_version raw_req
    cookies := res_cookies
    headers := res_headers
    content := { size := content_size, mimeType := response_mime, text := res_body, encoding := "utf-8" }
    redirectURL := pyStrip (Row.get row "Redirect URL" "")
    headersSize := calculate_headers_size res_headers
    bodySize := content_size }
  let timings := calculate_timings row
  { startedDateTime := Row.get row "Time" now
    time := csvTotalTime timings
    request := request_obj
    response := response_obj
    timings := timings
    serverIPAddress := pyStrip (Row.get row "IP" "")
    connection := pyStrip (Row.get row "Connection ID" "") }

/-- A CSV row exactly as `csv.DictReader` delivers it: every header column is
a key, and the stored value is `none` when the data row was too short and the
column was padded with `restval = None` (a key can also be missing entirely,
when the column is absent from the CSV header). -/
def RawRow := List (String × Option String)

/-- Python `row.get(k, d)` on a `DictReader` row: the stored value — which
may be `None` — when the key is present, the (string) default when the key
is absent. -/
def rawGetD (r : RawRow) (k d : String) : Option String :=
  match List.find? (fun p => p.1 == k) r with
  | some p => p.2
  | none => some d

/-- Is the stored value of column `k` Python `None`?  True only for a
present key carrying `None` (`row.get(k, '')` then returns `None` and a
subsequent `.strip()` raises `AttributeError`). -/
def rawIsNone (r : RawRow) (k : String) : Bool :=
  (rawGetD r k "").isNone

/-- Does the loop body raise on this row?  `.strip()` is called on
`row.get(..., '')` for `MIME type` (line 247, only evaluated when no
`Content-Type` response header supplied a MIME type, because `or`
short-circuits), `Method` (250), `URL` (251), `Redirect URL` (289), `IP`
(306) and `Connection ID` (307); a `None` value at any of these raises
`AttributeError`, caught at line 328 — the error counter increments and no
entry is written.  All other `None` values flow through `None`-tolerant code
(`decode_base64_safe`, `safe_int`, `safe_float`, `row.get('Time', now)`). -/
def csvRowRaises (row : RawRow) : Bool :=
  let raw_res := match rawGetD row "Response" "" with
    | some s => s
    | none => ""   -- decode_base64_safe returns "" for non-str input
  (rawIsNone row "MIME type" &&
    (get_mime_type_from_headers (parse_http_headers raw_res) == "")) ||
  rawIsNone row "Method" || rawIsNone row "URL" || rawIsNone row "Redirect URL" ||
  rawIsNone row "IP" || rawIsNone row "Connection ID"

/-- String-row image of a non-raising `DictReader` row: keys whose value is
`None` are dropped, so `Row.get` yields the same string default that the
`None`-tolerant call sites produce (`decode_base64_safe(None) = ""`,
`safe_int(None) = default`, and a `None` `MIME type` is only reachable here
when the header-derived MIME type wins the `or`).  Sole divergence: a `None`
`Time` value serializes as JSON `null` in the source but becomes the
`now` default here — `startedDateTime` is outside every claim. -/
def strRowOf (row : RawRow) : Row :=
  row.filterMap fun p => p.2.map fun v => (p.1, v)

/-- The loop body of `convert_csv_to_har_stream` on a raw `DictReader` row:
`none` when the body raises (`except` arm at line 328: error counted, row
skipped), otherwise the entry built by `processRow` on the string image. -/
def processRawRow (now : String) (row : RawRow) : Option CsvEntry :=
  if csvRowRaises row then none else some (processRow now (strRowOf row))

/-- The whole row loop of `convert_csv_to_har_stream`: entries in row order
plus the final `error_count`. -/
def convertRawRows (now : String) : List RawRow → List CsvEntry × Nat
  | [] => ([], 0)
  | row :: rest =>
    let (es, k) := convertRawRows now rest
    match processRawRow now row with
    | none => (es, k + 1)
    | some e => (e :: es, k)

/-! ## convert_xml.py : parsers -/

/-- `BurpXMLToHAR.parse_headers` inner loop (`src/convert_xml.py` lines
31-41): each line is stripped first; stop at the first blank line; lines with
`':'` are split on the first colon, both parts trimmed. -/
def xmlHeaderLoop : List String → List Header
  | [] => []
  | l :: ls =>
    let l' := pyStrip l
    if l' = "" then []
    else if l'.data.contains ':' then
      match findSplitStr l' ":" with
      | some (n, v) => ⟨pyStrip n, pyStrip v⟩ :: xmlHeaderLoop ls
      | none => xmlHeaderLoop ls   -- unreachable: the line contains ':'
    else xmlHeaderLoop ls

/-- `BurpXMLToHAR.parse_headers(header_text)` (`src/convert_xml.py` lines
24-43).  The source splits on CRLF and then has
`if not lines: lines = header_text.split('\n')`; that branch is kept here
exactly as written — it is dead code, because `str.split` never returns an
empty list. -/
def parse_headers (t : String) : List Header :=
  let lines := pySplitStr t "\r\n"
  let lines := if lines.isEmpty then pySplitStr t "\n" else lines
  xmlHeaderLoop (lines.drop 1)

/-- `BurpXMLToHAR.parse_cookies` segment loop (lines 51-58): each
`';'`-segment is stripped, then split on the first `'='` when present. -/
def xmlCookieSegs : List String → List Cookie
  | [] => []
  | seg :: rest =>
    let c := pyStrip seg
    (if c.data.contains '=' then
      match findSplitStr c "=" with
      | some (n, v) => [⟨pyStrip n, pyStrip v⟩]
      | none => []   -- unreachable: the segment contains '='
    else []) ++ xmlCookieSegs rest

/-- `BurpXMLToHAR.parse_cookies(headers)` (lines 45-60): request cookies,
`Cookie` headers only. -/
def parse_cookies : List Header → List Cookie
  | [] => []
  | h :: t =>
    (if pyLower h.name = "cookie" then xmlCookieSegs (pySplitStr h.value ";") else []) ++
      parse_cookies t

/-- `BurpXMLToHAR.extract_set_cookies(headers)` (lines 62-76): for each
`Set-Cookie` header, only `parts[0]` — the segment before the first `';'` —
is considered, and only when it contains `'='`.  The `parts and ...` truthy
check on the split result is dead (a split is never empty). -/
def extract_set_cookies : List Header → List Cookie
  | [] => []
  | h :: t =>
    (if pyLower h.name = "set-cookie" then
      match pySplitStr h.value ";" with
      | [] => []   -- unreachable: `parts` is never empty
      | p0 :: _ =>
        if p0.data.contains '=' then
          match findSplitStr p0 "=" with
          | some (n, v) => [⟨pyStrip n, pyStrip v⟩]
          | none => []   -- unreachable: the segment contains '='
        else []
    else []) ++ extract_set_cookies t

/-- `BurpXMLToHAR.parse_query_string(url)` (lines 78-102). -/
def parse_query_string (url : String) : List QueryParam :=
  if !(url.data.contains '?') then []
  else
    let query := match findSplitStr url "?" with
      | some (_, q) => q
      | none => ""   -- unreachable: url contains '?'
    let query := if query.data.contains '#' then (pySplitStr query "#").headD "" else query
    (pySplitStr query "&").filterMap fun param =>
      match findSplitStr param "=" with
      | some (n, v) => some ⟨n, v⟩
      | none => if param ≠ "" then some ⟨param, ""⟩ else none

/-- The body collection loop shared by `parse_http_request` and
`parse_http_response` (lines 136-143 / 171-178): after the first line that is
blank when stripped, every following line is collected. -/
def collectBodyLines : List String → Bool → List String
  | [], _ => []
  | l :: ls, started =>
    if started then l :: collectBodyLines ls true
    else if pyStrip l = "" then collectBodyLines ls true
    else collectBodyLines ls false

/-- Body of an XML-pipeline raw message (lines 133-147): the collected lines
re-joined with CRLF and **stripped**; `None` when no line was collected. -/
def xmlBodyOf (t : String) : Option String :=
  let bl := collectBodyLines (pySplitStr t "\r\n") false
  if bl.isEmpty then none else some (pyStrip (joinWith "\r\n" bl))

/-- Result of `BurpXMLToHAR.parse_http_request` (lines 113-147): `none` is the
`(None, None, None, None, None)` sentinel returned when the start line has
fewer than 3 space-separated tokens. -/
structure ReqParse where
  method : String
  path : String
  version : String
  headers : List Header
  body : Option String
deriving DecidableEq

/-- `BurpXMLToHAR.parse_http_request(request_text)` (lines 113-147).  The
`if not lines` check of the source is dead (a split is never empty) and the
start line is split on every space with no maxsplit. -/
def parse_http_request (t : String) : Option ReqParse :=
  let lines := pySplitStr t "\r\n"
  let first_line := pyStrip (lines.headD "")
  match pySplitStr first_line " " with
  | m :: p :: v :: _ =>
    some { method := m, path := p, version := v, headers := parse_headers t, body := xmlBodyOf t }
  | _ => none

/-- Result of `BurpXMLToHAR.parse_http_response` (lines 149-183): `sentinel`
is the all-`None` tuple for start lines with fewer than 3 tokens; `raises`
models the uncaught `ValueError` of `int(parts[1])` when the status-code
token is not a valid integer literal. -/
inductive RespParse where
  | sentinel
  | raises
  | ok (version : String) (status : Int) (statusText : String)
       (headers : List Header) (body : Option String)
deriving DecidableEq

/-- Python `int(s)` for strings: optional surrounding whitespace, optional
sign, ASCII digits with single underscores strictly between digits; `none`
models `ValueError`. -/
def validTailU : List Char → Bool
  | [] => true
  | '_' :: c :: rest => c.isDigit && validTailU rest
  | '_' :: [] => false
  | c :: rest => c.isDigit && validTailU rest

/-- Digit-group validity for Python `int` (see `validTailU`). -/
def validDigitsU : List Char → Bool
  | [] => false
  | c :: rest => c.isDigit && validTailU rest

/-- Value of a valid underscored digit string. -/
def underscoredDigits (cs : List Char) : Option Nat :=
  if validDigitsU cs then some (natOfDigits (cs.filter (· != '_'))) else none

/-- Python `int(s)` (see `validTailU`). -/
def pythonInt (s : String) : Option Int :=
  match stripL s.data with
  | '-' :: r => (underscoredDigits r).map (fun n => -(n : Int))
  | '+' :: r => (underscoredDigits r).map (fun n => (n : Int))
  | r => (underscoredDigits r).map (fun n => (n : Int))

/-- `BurpXMLToHAR.parse_http_response(response_text)` (lines 149-183).  The
start line is split with `split(' ', 2)`. -/
def parse_http_response (t : String) : RespParse :=
  let lines := pySplitStr t "\r\n"
  let first_line := pyStrip (lines.headD "")
  match pySplitMaxStr first_line " " 2 with
  | [v, s, st] =>
    (match pythonInt s with
     | some n => .ok v n st (parse_headers t) (xmlBodyOf t)
     | none => .raises)
  | _ => .sentinel

/-! ## convert_xml.py : items and the per-item loop body -/

/-- One `<item>` element of the Burp XML export, as accessed by
`parse_xml_file` (lines 209-218).  For each child element, the outer `Option`
is `item.find(tag)` (element present or not) and the inner `Option` is
`elem.text` (`None` for an empty element).  `request`/`response` texts are
post-`decode_base64_safe` (see header comment).  `ip` is
`host_elem.get('ip', '')` collapsed to a plain string (`""` when the host
element or attribute is missing); `host`, `port` and `protocol` are read by
the source but never used in the produced entry, so they are not modelled. -/
structure Item where
  time : Option (Option String)
  url : Option (Option String)
  method : Option (Option String)
  request : Option (Option String)
  status : Option (Option String)
  response : Option (Option String)
  mimetype : Option (Option String)
  ip : String

/-- `postData` block of the XML pipeline (lines 286-289, no `params`). -/
structure XmlPostData where
  mimeType : String
  text : String
deriving DecidableEq

/-- HAR request object built by the XML pipeline (lines 274-289). -/
structure XmlRequest where
  method : String
  url : String
  httpVersion : String
  headers : List Header
  queryString : List QueryParam
  cookies : List Cookie
  headersSize : Int
  bodySize : Int
  postData : Option XmlPostData
deriving DecidableEq

/-- `content` block of the XML response (lines 325-329, no `encoding`). -/
structure XmlContent where
  size : Int
  mimeType : String
  text : String
deriving DecidableEq

/-- HAR response object built by the XML pipeline (lines 319-333). -/
structure XmlResponse where
  status : Int
  statusText : String
  httpVersion : String
  headers : List Header
  cookies : List Cookie
  content : XmlContent
  redirectURL : String
  headersSize : Int
  bodySize : Int
deriving DecidableEq

/-- The constant timings block of the XML pipeline (lines 342-350). -/
structure XmlTimings where
  blocked : Int
  dns : Int
  connect : Int
  send : Int
  wait : Int
  receive : Int
  ssl : Int
deriving DecidableEq

/-- One HAR entry of the XML pipeline (lines 336-354); `cache` is the
constant empty object and is not modelled. -/
structure XmlEntry where
  startedDateTime : String
  time : Int
  request : XmlRequest
  response : XmlResponse
  timings : XmlTimings
  serverIPAddress : Option String
deriving DecidableEq

/-- Outcome of the per-item loop body: `skipped` for the bare `continue`s
(missing url/request element, empty url — lines 220-221 and 228-229), which
touch no statistic; `errored` for an exception caught by the per-item handler
(line 362), which appends to `stats['errors']`; `entry` for a produced HAR
entry. -/
inductive ItemResult where
  | skipped
  | errored
  | entry (e : XmlEntry)
deriving DecidableEq

/-- Projection used to state claims about produced entries. -/
def ItemResult.entryOf : ItemResult → Option XmlEntry
  | .entry e => some e
  | _ => none

/-- The last-match-wins request `Content-Type` scan (lines 261-263; the loop
has no `break`, so later headers overwrite earlier ones; the parallel
`content_length` accumulation is dead — the variable is never used). -/
def reqContentTypeLoop : String → List Header → String
  | acc, [] => acc
  | acc, h :: t =>
    reqContentTypeLoop
      (if pyLower h.name = "content-type" then pyStrip ((pySplitStr h.value ";").headD "") else acc) t

/-- The first-match-wins response `Content-Type` scan (lines 307-310, with
`break`). -/
def respContentTypeLoop (d : String) : List Header → String
  | [] => d
  | h :: t =>
    if pyLower h.name = "content-type" then pyStrip ((pySplitStr h.value ";").headD "")
    else respContentTypeLoop d t

/-- `url = url_elem.text.strip() if url_elem.text else ""` (line 227),
given the element is present with text `uo`. -/
def urlTextOf (uo : Option String) : String :=
  match uo with
  | some t => if t = "" then "" else pyStrip t
  | none => ""

/-- `method_elem.text.strip() if method_elem is not None and method_elem.text
else "GET"` (line 249). -/
def methodFallback (m : Option (Option String)) : String :=
  match m with
  | some (some t) => if t = "" then "GET" else pyStrip t
  | _ => "GET"

/-- `mimetype_elem.text.strip() if mimetype_elem is not None and
mimetype_elem.text else "text/html"` (line 305). -/
def mimetypeFallback (m : Option (Option String)) : String :=
  match m with
  | some (some t) => if t = "" then "text/html" else pyStrip t
  | _ => "text/html"

/-- `request_elem.text or ""` (line 240), given the element is present. -/
def textOrEmpty : Option String → String
  | some t => t
  | none => ""

/-- `response_elem.text or "" if response_elem is not None else ""`
(line 292). -/
def respTextOf : Option (Option String) → String
  | some (some t) => t
  | _ => ""

/-- The loop body of `BurpXMLToHAR.parse_xml_file` (lines 206-364) for one
item.  `tsOf` abstracts lines 224 and 185-192 (`parse_timestamp` /
`datetime.now()` — wall-clock and locale-dependent; no claim concerns the
timestamp).  Exception paths (caught at line 362):
* a request start line with fewer than 3 tokens makes `parse_http_request`
  return the all-`None` sentinel, and `parse_cookies(None)` at line 255 then
  raises `TypeError`;
* a response status token that is not an integer literal raises `ValueError`
  inside `parse_http_response` (line 163);
* a response sentinel (fewer than 3 start-line tokens, which includes a
  missing/empty `<response>` element) leaves `resp_headers = None`, and
  either `int(status_elem.text)` at line 301 raises `ValueError` or the
  header iteration at line 307 raises `TypeError`.
All three end the item as `errored`. -/
def processItem (tsOf : Option (Option String) → String) (it : Item) : ItemResult :=
  match it.url, it.request with
  | some uo, some ro =>
    let timestamp := tsOf it.time
    let urlS := urlTextOf uo
    if urlS = "" then .skipped
    else
      let requestData := textOrEmpty ro
      match parse_http_request requestData with
      | none => .errored
      | some rp =>
        let method := if rp.method = "" then methodFallback it.method else rp.method
        let query_string := parse_query_string urlS
        let cookies := parse_cookies rp.headers
        let content_type := reqContentTypeLoop "application/octet-stream" rp.headers
        let actual_body_size : Int :=
          match rp.body with
          | some b => if b = "" then 0 else (utf8Len b : Int)
          | none => 0
        let request_obj : XmlRequest := {
          method := method
          url := urlS
          httpVersion := pyOrStr rp.version "HTTP/1.1"
          headers := rp.headers
          queryString := query_string
          cookies := cookies
          headersSize := -1
          bodySize := actual_body_size
          postData :=
            match rp.body with
            | some b => if b = "" then none else some { mimeType := content_type, text := b }
            | none => none }
        let responseData := respTextOf it.response
        match parse_http_response responseData with
        | .raises => .errored
        | .sentinel => .errored
        | .ok v sc st hs b =>
          let resp_content_type := respContentTypeLoop (mimetypeFallback it.mimetype) hs
          let response_cookies := extract_set_cookies hs
          let actual_resp_size : Int :=
            match b with
            | some s => if s = "" then 0 else (utf8Len s : Int)
            | none => 0
          let response_obj : XmlResponse := {
            status := sc
            statusText := st
            httpVersion := pyOrStr v "HTTP/1.1"
            headers := hs
            cookies := response_cookies
            content := { size := actual_resp_size
                         mimeType := resp_content_type
                         text := match b with | some s => s | none => "" }
            redirectURL := ""
            headersSize := -1
            bodySize := actual_resp_size }
          .entry {
            startedDateTime := timestamp
            time := 100
            request := request_obj
            response := response_obj
            timings := { blocked := 0, dns := 0, connect := 0, send := 1,
                         wait := 50, receive := 49, ssl := 0 }
            serverIPAddress := if it.ip = "" then none else some it.ip }
  | _, _ => .skipped

/-- Statistics kept by `BurpXMLToHAR` (`total_items`, `entries_created`,
`errors` — the error-message list is modelled by its length). -/
structure XmlStats where
  total : Nat
  created : Nat
  errors : Nat
deriving DecidableEq

/-- The whole item loop of `parse_xml_file` over a list of items: entries in
source order plus final statistics. -/
def runItems (tsOf : Option (Option String) → String) : List Item → List XmlEntry × XmlStats
  | [] => ([], ⟨0, 0, 0⟩)
  | it :: rest =>
    let (es, st) := runItems tsOf rest
    match processItem tsOf it with
    | .skipped => (es, { st with total := st.total + 1 })
    | .errored => (es, { st with total := st.total + 1, errors := st.errors + 1 })
    | .entry e => (e :: es, { st with total := st.total + 1, created := st.created + 1 })

/-! ## Further lemmas about the primitives -/

theorem takeWhile_all {p : Char → Bool} :
    ∀ l : List Char, (∀ c ∈ l, p c = true) → l.takeWhile p = l := by
  intro l h
  induction l with
  | nil => rfl
  | cons a t ih =>
    have hpa : p a = true := h a (by simp)
    rw [List.takeWhile_cons_of_pos hpa]
    simp only [List.cons.injEq, true_and]
    exact ih (fun c hc => h c (by simp [hc]))

theorem takeWhile_append_head_neg {p : Char → Bool} :
    ∀ (l1 l2 : List Char), (∀ c ∈ l1, p c = true) → (∀ c ∈ l2.head?, p c = false) →
    (l1 ++ l2).takeWhile p = l1 := by
  intro l1 l2 h1 h2
  induction l1 with
  | nil =>
    simp only [List.nil_append]
    cases l2 with
    | nil => rfl
    | cons b t =>
      have : p b = false := h2 b (by simp)
      simp [List.takeWhile_cons, this]
  | cons a t ih =>
    have hpa : p a = true := h1 a (by simp)
    simp only [List.cons_append, List.takeWhile_cons_of_pos hpa, List.cons.injEq, true_and]
    exact ih (fun c hc => h1 c (by simp [hc]))

theorem mem_takeWhile_sat {p : Char → Bool} :
    ∀ (l : List Char) (c : Char), c ∈ l.takeWhile p → p c = true := by
  intro l
  induction l with
  | nil => intro c hc; simp at hc
  | cons a t ih =>
    intro c hc
    by_cases hpa : p a
    · rw [List.takeWhile_cons_of_pos hpa] at hc
      rcases List.mem_cons.mp hc with rfl | hmem
      · exact hpa
      · exact ih c hmem
    · rw [List.takeWhile_cons_of_neg (by simpa using hpa)] at hc
      simp at hc

theorem mem_takeWhile_mem {p : Char → Bool} (l : List Char) (c : Char)
    (h : c ∈ l.takeWhile p) : c ∈ l :=
  (l.takeWhile_sublist p).subset h

theorem mem_dropWhile_mem {p : Char → Bool} (l : List Char) (c : Char)
    (h : c ∈ l.dropWhile p) : c ∈ l :=
  (l.dropWhile_sublist p).subset h

theorem isSome_map_pair (f : List Char × List Char → List Char × List Char) :
    ∀ o : Option (List Char × List Char), (o.map f).isSome = o.isSome := by
  intro o; cases o <;> rfl

theorem findSplit_singleton_isSome (c : Char) :
    ∀ s : List Char, (findSplit [c] s).isSome = s.contains c := by
  intro s
  induction s with
  | nil => simp [findSplit]
  | cons a as ih =>
    simp only [findSplit, leadsWith, Bool.and_true]
    by_cases h : c = a
    · subst h
      simp [List.contains_cons]
    · have hne : (decide (c = a)) = false := by simpa using h
      rw [hne]
      simp only [Bool.false_eq_true, if_false, isSome_map_pair]
      rw [ih]
      simp only [List.contains_cons]
      have : (c == a) = false := by
        simp only [beq_eq_false_iff_ne, ne_eq]
        exact h
      rw [this, Bool.false_or]

theorem pySplitAux_ne_nil (sep : List Char) :
    ∀ (s acc : List Char) (k : Nat), (pySplitAux sep s acc k).isEmpty = false := by
  intro s
  induction s with
  | nil => intro acc k; rfl
  | cons c cs ih =>
    intro acc k
    cases k with
    | succ k' =>
      show (pySplitAux sep cs acc k').isEmpty = false
      exact ih acc k'
    | zero =>
      by_cases h : leadsWith sep (c :: cs)
      · simp only [pySplitAux, h, if_true]
        rfl
      · simp only [pySplitAux, h, Bool.false_eq_true, if_false]
        exact ih (c :: acc) 0

theorem pySplitStr_ne_nil (t sep : String) : (pySplitStr t sep).isEmpty = false := by
  unfold pySplitStr pySplitL
  by_cases h : sep.data.isEmpty
  · simp [h]
  · simp only [h, Bool.false_eq_true, if_false]
    have hmap : ∀ (l : List (List Char)),
        (l.map (fun d => (⟨d⟩ : String))).isEmpty = l.isEmpty := by
      intro l; cases l <;> rfl
    rw [hmap]
    exact pySplitAux_ne_nil sep.data t.data [] 0

/-! ## Claim C6 -/

/-- Claim C6 (code bug): the spec says that for raw text with bare `\n`
separators and no CRLF, the header parsers fall back to splitting on `\n` and
extract the same headers as from the CRLF form.  The XML parser's fallback
branch (`if not lines:` at `src/convert_xml.py` line 28) is unreachable —
`str.split` never returns an empty list, witnessed by the last conjunct — and
the CSV parser has no fallback at all, so both return the empty header list
on bare-LF input while the CRLF form yields the `Host` header. -/
theorem c6_code_bug_eval :
    parse_headers "GET / HTTP/1.1\nHost: h\n\n" = [] ∧
    parse_headers "GET / HTTP/1.1\r\nHost: h\r\n\r\n" = [⟨"Host", "h"⟩] ∧
    parse_http_headers "GET / HTTP/1.1\nHost: h\n\n" = [] ∧
    parse_http_headers "GET / HTTP/1.1\r\nHost: h\r\n\r\n" = [⟨"Host", "h"⟩] ∧
    (∀ t : String, (pySplitStr t "\r\n").isEmpty = false) :=
  ⟨by decide, by decide, by decide, by decide, fun t => pySplitStr_ne_nil t "\r\n"⟩

/-! ## Claim C9 -/

/-- Specification-side description of the MIME-type extractor (written from
the spec sentence): the value of the first header whose name lowercases to
`content-type`, truncated before its first `';'` and trimmed; the default `d`
when no such header exists. -/
def mimeSpecOf (d : String) (H : List Header) : String :=
  match H.find? (fun h => pyLower h.name == "content-type") with
  | some h => pyStrip ((pySplitStr h.value ";").headD "")
  | none => d

theorem respContentTypeLoop_eq_spec :
    ∀ (d : String) (H : List Header), respContentTypeLoop d H = mimeSpecOf d H := by
  intro d H
  induction H with
  | nil => rfl
  | cons h t ih =>
    by_cases hc : pyLower h.name = "content-type"
    · rw [respContentTypeLoop, if_pos hc]
      rw [mimeSpecOf, List.find?_cons_of_pos _ (by simpa using hc)]
    · rw [respContentTypeLoop, if_neg hc]
      rw [mimeSpecOf, List.find?_cons_of_neg _ (by simpa using hc)]
      exact ih

/-- Claim C9 (confirmed): both MIME-type extractors — the CSV pipeline's
`get_mime_type_from_headers` and the XML pipeline's response `Content-Type`
scan — return the value of the first case-insensitive `Content-Type` header
truncated before its first `';'` and trimmed; when no such header exists the
CSV extractor returns `""` and the XML scan keeps its caller-supplied
default. -/
theorem c9_mime_type_spec :
    (∀ H : List Header, get_mime_type_from_headers H = mimeSpecOf "" H) ∧
    (∀ (d : String) (H : List Header), respContentTypeLoop d H = mimeSpecOf d H) := by
  constructor
  · intro H
    induction H with
    | nil => rfl
    | cons h t ih =>
      by_cases hc : pyLower h.name = "content-type"
      · rw [get_mime_type_from_headers, if_pos hc]
        rw [mimeSpecOf, List.find?_cons_of_pos _ (by simpa using hc)]
      · rw [get_mime_type_from_headers, if_neg hc]
        rw [mimeSpecOf, List.find?_cons_of_neg _ (by simpa using hc)]
        exact ih
  · exact respContentTypeLoop_eq_spec

/-! ## Claim C4 -/

theorem findSplitStr_isSome_contains (seg : String) :
    (findSplitStr seg "=").isSome = seg.data.contains '=' := by
  unfold findSplitStr
  have h1 : ("=" : String).data = ['='] := rfl
  rw [h1]
  cases hfs : findSplit ['='] seg.data with
  | none =>
    have := findSplit_singleton_isSome '=' seg.data
    rw [hfs] at this
    simpa using this.symm
  | some p =>
    have := findSplit_singleton_isSome '=' seg.data
    rw [hfs] at this
    simpa using this.symm

/-- Specification-side per-header behaviour of the XML response-cookie
extractor (from the spec sentence): for a `Set-Cookie` header, only the first
`';'`-segment is considered and it yields one cookie exactly when it contains
`'='`; all attribute segments are discarded; other headers yield nothing. -/
def setCookieSpecOf (h : Header) : List Cookie :=
  if pyLower h.name = "set-cookie" then
    match findSplitStr ((pySplitStr h.value ";").headD "") "=" with
    | some (n, v) => [⟨pyStrip n, pyStrip v⟩]
    | none => []
  else []

/-- Cookie built from one `name=value` segment (first `'='` splits). -/
def eqSegCookieOf (seg : String) : Cookie :=
  match findSplitStr seg "=" with
  | some (n, v) => ⟨pyStrip n, pyStrip v⟩
  | none => ⟨"", ""⟩

/-- Specification-side per-header behaviour of the CSV cookie extractor: for
a header named `cookie` or `set-cookie` (case-insensitively), every
`';'`-segment containing `'='` — including attribute segments such as
`Path=/` — becomes one cookie. -/
def csvCookieSpecOf (h : Header) : List Cookie :=
  if pyLower h.name = "cookie" ∨ pyLower h.name = "set-cookie" then
    ((pySplitStr h.value ";").filter (fun seg => seg.data.contains '=')).map eqSegCookieOf
  else []

theorem csvCookieSegs_eq_spec :
    ∀ segs : List String,
      csvCookieSegs segs = (segs.filter (fun seg => seg.data.contains '=')).map eqSegCookieOf := by
  intro segs
  induction segs with
  | nil => rfl
  | cons seg rest ih =>
    by_cases hc : seg.data.contains '='
    · rw [List.filter_cons_of_pos (by simpa using hc), List.map_cons]
      rw [csvCookieSegs, if_pos hc]
      cases hfs : findSplitStr seg "=" with
      | none =>
        exfalso
        have := findSplitStr_isSome_contains seg
        rw [hfs, hc] at this
        simp at this
      | some p =>
        rw [ih]
        cases p with
        | mk n v => simp [eqSegCookieOf, hfs]
    · rw [List.filter_cons_of_neg (by simpa using hc)]
      rw [csvCookieSegs, if_neg (by simpa using hc)]
      simpa using ih

/-- Counterexample to claim C4: the CSV pipeline's response-cookie extractor
(`parse_cookies_from_headers`, used for response headers at
`src/convert_csv.py` line 240) does not take only the first segment of a
`Set-Cookie` header — the `Path=/` attribute segment becomes a second cookie;
and the XML extractor yields zero (not exactly one) cookies for a
`Set-Cookie` header whose first segment has no `'='`. -/
theorem c4_counterexample :
    parse_cookies_from_headers [⟨"Set-Cookie", "sid=42; Path=/"⟩] =
      [⟨"sid", "42"⟩, ⟨"Path", "/"⟩] ∧
    extract_set_cookies [⟨"Set-Cookie", "opaque"⟩] = [] := by
  constructor <;> decide

/-- Claim C4 as amended: the XML pipeline's `extract_set_cookies` produces at
most one cookie per case-insensitive `Set-Cookie` header — exactly one when
the segment before the first `';'` contains `'='`, taking only that segment
and discarding attribute segments; the CSV pipeline's
`parse_cookies_from_headers` instead matches both `Cookie` and `Set-Cookie`
headers and produces one cookie per `'='`-containing `';'`-segment, keeping
attribute segments such as `Path`. -/
theorem c4_amended_cookie_extractors :
    (∀ H : List Header, extract_set_cookies H = H.flatMap setCookieSpecOf) ∧
    (∀ h : Header, (setCookieSpecOf h).length ≤ 1) ∧
    (∀ H : List Header, parse_cookies_from_headers H = H.flatMap csvCookieSpecOf) ∧
    extract_set_cookies [⟨"Set-Cookie", "sid=42; Path=/; Expires=never"⟩] = [⟨"sid", "42"⟩] ∧
    parse_cookies_from_headers [⟨"Set-Cookie", "sid=42; Path=/; Expires=never"⟩] =
      [⟨"sid", "42"⟩, ⟨"Path", "/"⟩, ⟨"Expires", "never"⟩] := by
  refine ⟨?_, ?_, ?_, by decide, by decide⟩
  · intro H
    induction H with
    | nil => rfl
    | cons h t ih =>
      rw [List.flatMap_cons, extract_set_cookies, ih]
      have hhead : (if pyLower h.name = "set-cookie" then
          match pySplitStr h.value ";" with
          | [] => []
          | p0 :: _ =>
            if p0.data.contains '=' then
              match findSplitStr p0 "=" with
              | some (n, v) => [(⟨pyStrip n, pyStrip v⟩ : Cookie)]
              | none => []
            else []
        else []) = setCookieSpecOf h := by
        by_cases hn : pyLower h.name = "set-cookie"
        · rw [if_pos hn, setCookieSpecOf, if_pos hn]
          cases hsp : pySplitStr h.value ";" with
          | nil =>
            exfalso
            have := pySplitStr_ne_nil h.value ";"
            rw [hsp] at this
            simp at this
          | cons p0 rest =>
            simp only [List.headD_cons]
            by_cases hc : p0.data.contains '='
            · rw [if_pos hc]
            · rw [if_neg (by simpa using hc)]
              cases hfs : findSplitStr p0 "=" with
              | none => rfl
              | some p =>
                exfalso
                have := findSplitStr_isSome_contains p0
                rw [hfs] at this
                simp only [Option.isSome_some] at this
                rw [← this] at hc
                exact hc rfl
        · rw [if_neg hn, setCookieSpecOf, if_neg hn]
      rw [hhead]
  · intro h
    rw [setCookieSpecOf]
    by_cases hn : pyLower h.name = "set-cookie"
    · rw [if_pos hn]
      cases findSplitStr ((pySplitStr h.value ";").headD "") "=" with
      | none => simp
      | some p => cases p with | mk n v => simp
    · rw [if_neg hn]; simp
  · intro H
    induction H with
    | nil => rfl
    | cons h t ih =>
      rw [List.flatMap_cons, parse_cookies_from_headers, ih]
      have hhead : (if pyLower h.name = "cookie" ∨ pyLower h.name = "set-cookie"
          then csvCookieSegs (pySplitStr h.value ";") else []) = csvCookieSpecOf h := by
        by_cases hn : pyLower h.name = "cookie" ∨ pyLower h.name = "set-cookie"
        · rw [if_pos hn, csvCookieSpecOf, if_pos hn]
          exact csvCookieSegs_eq_spec _
        · rw [if_neg hn, csvCookieSpecOf, if_neg hn]
      rw [hhead]

/-! ## Claim C7 -/

/-- Counterexample to claim C7: the claim covers both cited body extractors,
but the XML pipeline's extractor (`parse_http_request`, lines 133-147 of
`src/convert_xml.py`) is not verbatim — it strips the rejoined body (` hi
\r\n` becomes `hi`) — and it has no `\n\n` fallback (a bare-LF message yields
`None` where `extract_body` returns the text after the blank line). -/
theorem c7_counterexample :
    extract_body "GET / HTTP/1.1\r\n\r\n hi \r\n" = " hi \r\n" ∧
    (parse_http_request "GET / HTTP/1.1\r\n\r\n hi \r\n").map ReqParse.body = some (some "hi") ∧
    extract_body "GET / HTTP/1.1\n\nxyz" = "xyz" ∧
    (parse_http_request "GET / HTTP/1.1\n\nxyz").map ReqParse.body = some none := by
  exact ⟨by decide, by decide, by decide, by decide⟩

/-- Claim C7 as amended: the CSV pipeline's `extract_body` returns everything
after the first `"\r\n\r\n"` — falling back to `"\n\n"` — verbatim (the
input provably re-assembles as `prefix ++ separator ++ body`), and returns
`""` when neither separator occurs; the XML pipeline's body extractor
instead splits on CRLF lines, collects the lines after the first line that is
blank when stripped, rejoins them with CRLF and strips the result, so every
body it returns is whitespace-stripped rather than verbatim. -/
theorem c7_amended_extract_body :
    (∀ raw : String, findSplit "\r\n\r\n".data raw.data = none →
       findSplit "\n\n".data raw.data = none → extract_body raw = "") ∧
    (∀ (raw : String) (a b : List Char), findSplit "\r\n\r\n".data raw.data = some (a, b) →
       raw.data = a ++ "\r\n\r\n".data ++ b ∧ extract_body raw = ⟨b⟩) ∧
    (∀ (raw : String) (a b : List Char), findSplit "\r\n\r\n".data raw.data = none →
       findSplit "\n\n".data raw.data = some (a, b) →
       raw.data = a ++ "\n\n".data ++ b ∧ extract_body raw = ⟨b⟩) ∧
    (∀ (t : String) (r : ReqParse) (b : String), parse_http_request t = some r →
       r.body = some b → pyStrip b = b) := by
  refine ⟨?_, ?_, ?_, ?_⟩
  · intro raw h1 h2
    unfold extract_body
    by_cases hr : raw = ""
    · rw [if_pos hr]
    · rw [if_neg hr, h1, h2]
  · intro raw a b h
    refine ⟨findSplit_eq _ _ _ _ h, ?_⟩
    have hr : raw ≠ "" := by
      intro he
      subst he
      simp [findSplit] at h
    unfold extract_body
    rw [if_neg hr, h]
  · intro raw a b h1 h2
    refine ⟨findSplit_eq _ _ _ _ h2, ?_⟩
    have hr : raw ≠ "" := by
      intro he
      subst he
      simp [findSplit] at h2
    unfold extract_body
    rw [if_neg hr, h1, h2]
  · intro t r b hp hb
    simp only [parse_http_request] at hp
    split at hp
    · rw [← Option.some.injEq] at hp
      simp only [Option.some.injEq] at hp
      subst hp
      simp only [xmlBodyOf] at hb
      split at hb
      · exact absurd hb (by simp)
      · simp only [Option.some.injEq] at hb
        subst hb
        exact pyStrip_idem _
    · exact absurd hp (by simp)

/-- Witness for `c7_amended_extract_body` at concrete inputs. -/
theorem c7_extract_body_witness :
    extract_body "ab" = "" ∧
    extract_body "A\r\n\r\nB" = "B" ∧
    extract_body "A\n\nB" = "B" ∧
    pyStrip "hi" = "hi" :=
  ⟨c7_amended_extract_body.1 "ab" (by decide) (by decide),
   (c7_amended_extract_body.2.1 "A\r\n\r\nB" "A".data "B".data (by decide)).2,
   (c7_amended_extract_body.2.2.1 "A\n\nB" "A".data "B".data (by decide) (by decide)).2,
   c7_amended_extract_body.2.2.2 "GET / HTTP/1.1\r\n\r\nhi"
     { method := "GET", path := "/", version := "HTTP/1.1",
       headers := [], body := some "hi" } "hi" (by decide) rfl⟩

/-! ## Shape of every entry the XML loop produces -/

/-- Any entry produced by the XML per-item loop body comes from a successful
request parse and a successful response parse, and its fields are exactly the
ones built at `src/convert_xml.py` lines 274-354.  Shared backbone for the
claims about the XML pipeline. -/
theorem processItem_entry_shape (tsOf : Option (Option String) → String)
    (it : Item) (e : XmlEntry) (h : processItem tsOf it = ItemResult.entry e) :
    ∃ (uo ro : Option String) (rp : ReqParse) (v : String) (sc : Int) (st : String)
      (hs : List Header) (b : Option String),
      it.url = some uo ∧ it.request = some ro ∧
      parse_http_request (textOrEmpty ro) = some rp ∧
      parse_http_response (respTextOf it.response) = RespParse.ok v sc st hs b ∧
      e.startedDateTime = tsOf it.time ∧
      e.time = 100 ∧
      e.request.headersSize = -1 ∧
      e.response.headersSize = -1 ∧
      e.timings = ⟨0, 0, 0, 1, 50, 49, 0⟩ ∧
      e.response.bodySize =
        (match b with | some s => if s = "" then 0 else (utf8Len s : Int) | none => 0) ∧
      e.response.content.size = e.response.bodySize ∧
      e.response.content.text = (match b with | some s => s | none => "") ∧
      e.request.bodySize =
        (match rp.body with | some s => if s = "" then 0 else (utf8Len s : Int) | none => 0) ∧
      e.request.postData =
        (match rp.body with
         | some s => if s = "" then none
             else some { mimeType := reqContentTypeLoop "application/octet-stream" rp.headers,
                         text := s }
         | none => none) ∧
      e.request.method = (if rp.method = "" then methodFallback it.method else rp.method) ∧
      e.request.url = urlTextOf uo := by
  rcases hu : it.url with _ | uo
  · rw [processItem, hu] at h
    exact absurd h (by simp)
  · rcases hr : it.request with _ | ro
    · rw [processItem, hu, hr] at h
      exact absurd h (by simp)
    · rw [processItem, hu, hr] at h
      dsimp only at h
      by_cases husk : urlTextOf uo = ""
      · rw [if_pos husk] at h
        exact absurd h (by simp)
      · rw [if_neg husk] at h
        rcases hpr : parse_http_request (textOrEmpty ro) with _ | rp
        · simp only [hpr] at h
          exact absurd h (by simp)
        · simp only [hpr] at h
          rcases hresp : parse_http_response (respTextOf it.response) with _ | _ | ⟨v, sc, st, hs, b⟩
          · simp only [hresp] at h
            exact absurd h (by simp)
          · simp only [hresp] at h
            exact absurd h (by simp)
          · simp only [hresp, ItemResult.entry.injEq] at h
            subst h
            refine ⟨uo, ro, rp, v, sc, st, hs, b, rfl, rfl, hpr, rfl,
              rfl, rfl, rfl, rfl, rfl, rfl, rfl, rfl, rfl, rfl, rfl, rfl⟩

/-- Constant timestamp function used to instantiate the abstracted
`parse_timestamp`/`datetime.now()` argument in concrete evaluations. -/
def tsConstT : Option (Option String) → String := fun _ => "T"

/-! ## Claim C1 -/

/-- CSV row exhibiting the C1 counterexample: the `Length` column says 999
while the decoded response body is `hello` (5 UTF-8 bytes). -/
def c1Row : Row :=
  [("URL", "http://x/"), ("Method", "GET"), ("Length", "999"),
   ("Response", "HTTP/1.1 200 OK\r\n\r\nhello")]

/-- Counterexample to claim C1: in the CSV pipeline the emitted response
`bodySize` and `content.size` are `safe_int(row['Length'], -1)` — here 999 —
not the UTF-8 byte length (5) of the body extracted from the decoded
response text, so they are taken from source metadata. -/
theorem c1_counterexample :
    (processRow "N" c1Row).response.bodySize = 999 ∧
    (processRow "N" c1Row).response.content.size = 999 ∧
    (processRow "N" c1Row).response.content.text = "hello" ∧
    utf8Len (processRow "N" c1Row).response.content.text = 5 ∧
    ((processRow "N" c1Row).response.bodySize ==
      (utf8Len (processRow "N" c1Row).response.content.text : Int)) = false := by
  exact ⟨by decide, by decide, by decide, by decide, by decide⟩

/-- Claim C1 as amended: in the XML pipeline the emitted response `bodySize`
and `content.size` both equal the UTF-8 byte length of the body extracted
from the decoded response text; in the CSV pipeline both are taken from the
CSV `Length` column via `safe_int(row['Length'], -1)`, independent of the
extracted body. -/
theorem c1_amended_sizes :
    (∀ (tsOf : Option (Option String) → String) (it : Item) (e : XmlEntry),
       processItem tsOf it = ItemResult.entry e →
       e.response.bodySize = (utf8Len e.response.content.text : Int) ∧
       e.response.content.size = e.response.bodySize) ∧
    (∀ (now : String) (row : Row),
       (processRow now row).response.bodySize = csvContentSize row ∧
       (processRow now row).response.content.size = csvContentSize row) := by
  constructor
  · intro tsOf it e h
    obtain ⟨uo, ro, rp, v, sc, st, hs, b, _, _, _, _, _, _, _, _, _,
      hbs, hcs, htx, _, _, _, _⟩ := processItem_entry_shape tsOf it e h
    constructor
    · rw [hbs, htx]
      cases b with
      | none => rfl
      | some s =>
        by_cases hse : s = ""
        · simp [hse, utf8Len]
        · simp [hse]
    · exact hcs
  · intro now row
    exact ⟨rfl, rfl⟩

/-- XML item used to instantiate `c1_amended_sizes`. -/
def c1Item : Item :=
  { time := none, url := some (some "http://h/"), method := none,
    request := some (some "GET / HTTP/1.1\r\n\r\n"), status := none,
    response := some (some "HTTP/1.1 200 OK\r\n\r\nhi"), mimetype := none, ip := "" }

/-- The entry `processItem` produces for `c1Item`. -/
def c1Entry : XmlEntry :=
  { startedDateTime := "T", time := 100,
    request := { method := "GET", url := "http://h/", httpVersion := "HTTP/1.1", headers := [],
                 queryString := [], cookies := [], headersSize := -1, bodySize := 0,
                 postData := none },
    response := { status := 200, statusText := "OK", httpVersion := "HTTP/1.1", headers := [],
                  cookies := [],
                  content := { size := 2, mimeType := "text/html", text := "hi" },
                  redirectURL := "", headersSize := -1, bodySize := 2 },
    timings := ⟨0, 0, 0, 1, 50, 49, 0⟩, serverIPAddress := none }

/-- Witness for `c1_amended_sizes` at a concrete item and row. -/
theorem c1_sizes_witness :
    (c1Entry.response.bodySize = (utf8Len c1Entry.response.content.text : Int) ∧
     c1Entry.response.content.size = c1Entry.response.bodySize) ∧
    ((processRow "N" [("Length", "7")]).response.bodySize = csvContentSize [("Length", "7")] ∧
     (processRow "N" [("Length", "7")]).response.content.size = csvContentSize [("Length", "7")]) :=
  ⟨c1_amended_sizes.1 tsConstT c1Item c1Entry (by decide),
   c1_amended_sizes.2 "N" [("Length", "7")]⟩

/-! ## Claim C10 -/

/-- Claim C10 (confirmed): every entry the XML pipeline produces has
`request.headersSize = -1`, `response.headersSize = -1`, `time = 100` and the
fixed timings object `{blocked 0, dns 0, connect 0, send 1, wait 50,
receive 49, ssl 0}`, regardless of the source item's content. -/
theorem c10_xml_constants :
    ∀ (tsOf : Option (Option String) → String) (it : Item) (e : XmlEntry),
      processItem tsOf it = ItemResult.entry e →
      e.time = 100 ∧ e.request.headersSize = -1 ∧ e.response.headersSize = -1 ∧
      e.timings = ⟨0, 0, 0, 1, 50, 49, 0⟩ := by
  intro tsOf it e h
  obtain ⟨uo, ro, rp, v, sc, st, hs, b, _, _, _, _, _, htime, hreq, hresp, htim,
    _, _, _, _, _, _, _⟩ := processItem_entry_shape tsOf it e h
  exact ⟨htime, hreq, hresp, htim⟩

/-- XML item used to instantiate `c10_xml_constants`. -/
def c10Item : Item :=
  { time := none, url := some (some "https://s/"), method := none,
    request := some (some "POST /p HTTP/1.1\r\nHost: s\r\n\r\nq=1"), status := none,
    response := some (some "HTTP/1.1 404 Not Found\r\n\r\n"), mimetype := none, ip := "9.9.9.9" }

/-- The entry `processItem` produces for `c10Item`. -/
def c10Entry : XmlEntry :=
  { startedDateTime := "T", time := 100,
    request := { method := "POST", url := "https://s/", httpVersion := "HTTP/1.1",
                 headers := [⟨"Host", "s"⟩], queryString := [], cookies := [],
                 headersSize := -1, bodySize := 3,
                 postData := some { mimeType := "application/octet-stream", text := "q=1" } },
    response := { status := 404, statusText := "Not Found", httpVersion := "HTTP/1.1",
                  headers := [], cookies := [],
                  content := { size := 0, mimeType := "text/html", text := "" },
                  redirectURL := "", headersSize := -1, bodySize := 0 },
    timings := ⟨0, 0, 0, 1, 50, 49, 0⟩, serverIPAddress := some "9.9.9.9" }

/-- Witness for `c10_xml_constants` at a concrete item. -/
theorem c10_xml_constants_witness :
    c10Entry.time = 100 ∧ c10Entry.request.headersSize = -1 ∧
    c10Entry.response.headersSize = -1 ∧ c10Entry.timings = ⟨0, 0, 0, 1, 50, 49, 0⟩ :=
  c10_xml_constants tsConstT c10Item c10Entry (by decide)

/-! ## Claim C5 -/

/-- XML item whose request is a `GET` carrying a body. -/
def c5Item : Item :=
  { time := none, url := some (some "http://h/x"), method := none,
    request := some (some "GET /x HTTP/1.1\r\n\r\nabc"), status := none,
    response := some (some "HTTP/1.1 200 OK\r\n\r\nok"), mimetype := none, ip := "" }

/-- Counterexample to claim C5: the XML pipeline attaches `postData` whenever
a non-empty body was extracted, with no method restriction — a `GET` request
with a body gets a `postData` block (`src/convert_xml.py` line 285 checks
only `if req_body:`). -/
theorem c5_counterexample :
    (processItem tsConstT c5Item).entryOf.map
      (fun e => (e.request.method, e.request.postData.isSome)) = some ("GET", true) := by
  decide

/-- Claim C5 as amended: the CSV pipeline attaches `postData` iff a non-empty
body was extracted AND the upper-cased method is one of
POST/PUT/PATCH/DELETE; the XML pipeline attaches `postData` iff a non-empty
body was extracted — equivalently iff the request `bodySize` is non-zero —
regardless of the method. -/
theorem c5_amended_postdata :
    (∀ (now : String) (row : Row),
       (processRow now row).request.postData.isSome = true ↔
         (csvReqBody row ≠ "" ∧
          (["POST", "PUT", "PATCH", "DELETE"].contains (pyUpper (csvMethod row))) = true)) ∧
    (∀ (tsOf : Option (Option String) → String) (it : Item) (e : XmlEntry),
       processItem tsOf it = ItemResult.entry e →
       (e.request.postData.isSome = true ↔ e.request.bodySize ≠ 0)) := by
  constructor
  · intro now row
    have hproj : (processRow now row).request.postData =
        (if csvReqBody row ≠ "" ∧
            (["POST", "PUT", "PATCH", "DELETE"].contains (pyUpper (csvMethod row))) = true then
          some { mimeType := pyOrStr
                   (get_mime_type_from_headers (parse_http_headers (Row.get row "Request" "")))
                   "application/octet-stream",
                 text := csvReqBody row, params := [] }
        else none) := rfl
    rw [hproj]
    by_cases hcond : csvReqBody row ≠ "" ∧
        (["POST", "PUT", "PATCH", "DELETE"].contains (pyUpper (csvMethod row))) = true
    · simp only [if_pos hcond, Option.isSome_some]
      exact ⟨fun _ => hcond, fun _ => trivial⟩
    · simp only [if_neg hcond, Option.isSome_none]
      constructor
      · intro hf; exact absurd hf (by simp)
      · intro hc; exact absurd hc hcond
  · intro tsOf it e h
    obtain ⟨uo, ro, rp, v, sc, st, hs, b, _, _, _, _, _, _, _, _, _,
      _, _, _, hbsz, hpd, _, _⟩ := processItem_entry_shape tsOf it e h
    rw [hbsz, hpd]
    cases rp.body with
    | none => simp
    | some s =>
      by_cases hse : s = ""
      · simp [hse]
      · simp only [hse, Bool.false_eq_true, if_false, Option.isSome_some, true_iff, ne_eq]
        intro hzero
        have : utf8Len s = 0 := by exact_mod_cast hzero
        exact hse (utf8Len_eq_zero.mp this)

/-- The entry `processItem` produces for `c5Item`. -/
def c5Entry : XmlEntry :=
  { startedDateTime := "T", time := 100,
    request := { method := "GET", url := "http://h/x", httpVersion := "HTTP/1.1", headers := [],
                 queryString := [], cookies := [], headersSize := -1, bodySize := 3,
                 postData := some { mimeType := "application/octet-stream", text := "abc" } },
    response := { status := 200, statusText := "OK", httpVersion := "HTTP/1.1", headers := [],
                  cookies := [],
                  content := { size := 2, mimeType := "text/html", text := "ok" },
                  redirectURL := "", headersSize := -1, bodySize := 2 },
    timings := ⟨0, 0, 0, 1, 50, 49, 0⟩, serverIPAddress := none }

/-- Witness for `c5_amended_postdata` at a concrete row and item. -/
theorem c5_postdata_witness :
    ((processRow "N" [("Method", "post"), ("Request", "POST / HTTP/1.1\r\n\r\nx=1")]).request.postData.isSome = true ↔
       (csvReqBody [("Method", "post"), ("Request", "POST / HTTP/1.1\r\n\r\nx=1")] ≠ "" ∧
        (["POST", "PUT", "PATCH", "DELETE"].contains
          (pyUpper (csvMethod [("Method", "post"), ("Request", "POST / HTTP/1.1\r\n\r\nx=1")]))) = true)) ∧
    (c5Entry.request.postData.isSome = true ↔ c5Entry.request.bodySize ≠ 0) :=
  ⟨c5_amended_postdata.1 "N" [("Method", "post"), ("Request", "POST / HTTP/1.1\r\n\r\nx=1")],
   c5_amended_postdata.2 tsConstT c5Item c5Entry (by decide)⟩

/-! ## Claim C3 -/

/-- XML item with a `<url>` element but no `<request>` element. -/
def c3Item : Item :=
  { time := none, url := some (some "http://h/"), method := none,
    request := none, status := none, response := none, mimetype := none, ip := "" }

/-- Counterexample to claim C3: an XML item without a `<request>` element is
skipped, but the error statistic stays 0 — the bare `continue` at
`src/convert_xml.py` lines 220-221 touches no counter — and in the CSV
pipeline a row of a CSV with no URL column at all (`row.get('URL','')`
returns the `''` default) is not skipped: an entry with `url = ""` is
emitted and no error is counted. -/
theorem c3_counterexample :
    runItems tsConstT [c3Item] = ([], ⟨1, 0, 0⟩) ∧
    (convertRawRows "N" [[("Method", some "GET")]]).1.map (fun e => e.request.url) = [""] ∧
    (convertRawRows "N" [[("Method", some "GET")]]).2 = 0 := by
  exact ⟨by decide, by decide, by decide⟩

/-- Claim C3 as amended: in the XML pipeline a record with a missing `<url>`
or `<request>` element, or an empty URL text, is skipped with no partial
entry, but it is **not** counted in the error statistic (a skipped item
changes neither the entry list, nor `errors`, nor `entries_created`).  The
CSV pipeline has no URL-based skipping: a row whose URL is the empty string
(or whose URL column is absent from the header) still yields an entry with
an empty `url`; but a short data row, padded by `csv.DictReader` with
`None`, is skipped and counted as an error exactly when one of the
always-stripped columns — `Method`, `URL`, `Redirect URL`, `IP`,
`Connection ID`, or `MIME type` while no `Content-Type` response header was
found — holds `None` (`.strip()` raises `AttributeError`, caught by the
per-row handler), and the final error count is exactly the number of such
raising rows. -/
theorem c3_amended_skip_accounting :
    (∀ (tsOf : Option (Option String) → String) (it : Item),
       it.url = none → processItem tsOf it = ItemResult.skipped) ∧
    (∀ (tsOf : Option (Option String) → String) (it : Item),
       it.request = none → processItem tsOf it = ItemResult.skipped) ∧
    (∀ (tsOf : Option (Option String) → String) (it : Item) (uo : Option String),
       it.url = some uo → urlTextOf uo = "" → processItem tsOf it = ItemResult.skipped) ∧
    (∀ (tsOf : Option (Option String) → String) (it : Item) (rest : List Item),
       processItem tsOf it = ItemResult.skipped →
       (runItems tsOf (it :: rest)).1 = (runItems tsOf rest).1 ∧
       (runItems tsOf (it :: rest)).2.errors = (runItems tsOf rest).2.errors ∧
       (runItems tsOf (it :: rest)).2.created = (runItems tsOf rest).2.created) ∧
    (∀ (now : String) (row : RawRow),
       csvRowRaises row = true → processRawRow now row = none) ∧
    (∀ (now : String) (row : RawRow),
       csvRowRaises row = false →
       processRawRow now row = some (processRow now (strRowOf row))) ∧
    (∀ (now : String) (rows : List RawRow),
       (convertRawRows now rows).2 = (rows.filter (fun r => csvRowRaises r)).length ∧
       (convertRawRows now rows).1.length =
         (rows.filter (fun r => !(csvRowRaises r))).length) ∧
    (∀ (now : String) (row : Row), (processRow now row).request.url = csvUrl row) := by
  refine ⟨?_, ?_, ?_, ?_, ?_, ?_, ?_, ?_⟩
  · intro tsOf it h
    rcases hr : it.request with _ | ro <;> rw [processItem, h, hr]
  · intro tsOf it h
    rcases hu : it.url with _ | uo <;> rw [processItem, hu, h]
  · intro tsOf it uo h h0
    rcases hr : it.request with _ | ro
    · rw [processItem, h, hr]
    · rw [processItem, h, hr]
      dsimp only
      rw [if_pos h0]
  · intro tsOf it rest h
    rcases hrr : runItems tsOf rest with ⟨es, st⟩
    simp only [runItems, hrr, h]
    exact ⟨trivial, trivial, trivial⟩
  · intro now row h
    rw [processRawRow, if_pos h]
  · intro now row h
    rw [processRawRow, if_neg (by rw [h]; exact Bool.false_ne_true)]
  · intro now rows
    induction rows with
    | nil => exact ⟨rfl, rfl⟩
    | cons row rest ih =>
      rcases hrr : convertRawRows now rest with ⟨es, k⟩
      rw [hrr] at ih
      dsimp only at ih
      obtain ⟨ih1, ih2⟩ := ih
      by_cases hcr : csvRowRaises row = true
      · rw [List.filter_cons_of_pos (by simpa using hcr),
          List.filter_cons_of_neg (by simp [hcr])]
        simp only [convertRawRows, hrr, processRawRow, if_pos hcr, List.length_cons]
        exact ⟨by omega, ih2⟩
      · have hcr' : csvRowRaises row = false := by
          cases h4 : csvRowRaises row
          · rfl
          · exact absurd h4 hcr
        rw [List.filter_cons_of_neg (by simp [hcr']),
          List.filter_cons_of_pos (by simp [hcr'])]
        simp only [convertRawRows, hrr, processRawRow, if_neg hcr, List.length_cons]
        exact ⟨ih1, by omega⟩
  · intro now row
    rfl

/-- XML item with neither `<url>` nor `<request>`. -/
def c3ItemNoUrl : Item :=
  { time := none, url := none, method := none, request := none,
    status := none, response := none, mimetype := none, ip := "" }

/-- XML item whose `<url>` text strips to the empty string. -/
def c3ItemBlankUrl : Item :=
  { time := none, url := some (some "  "), method := none,
    request := some (some "GET / HTTP/1.1\r\n\r\n"),
    status := none, response := none, mimetype := none, ip := "" }

/-- Short CSV data row: `DictReader` padded the `URL` column with `None`. -/
def c3ShortRow : RawRow := [("Method", some "GET"), ("URL", none)]

/-- Row whose `URL` column is present and empty. -/
def c3EmptyUrlRow : RawRow := [("URL", some "")]

/-- Witness for `c3_amended_skip_accounting` at concrete inputs. -/
theorem c3_skip_witness :
    processItem tsConstT c3ItemNoUrl = ItemResult.skipped ∧
    processItem tsConstT c3Item = ItemResult.skipped ∧
    processItem tsConstT c3ItemBlankUrl = ItemResult.skipped ∧
    ((runItems tsConstT [c3ItemNoUrl]).1 = (runItems tsConstT []).1 ∧
     (runItems tsConstT [c3ItemNoUrl]).2.errors = (runItems tsConstT []).2.errors ∧
     (runItems tsConstT [c3ItemNoUrl]).2.created = (runItems tsConstT []).2.created) ∧
    processRawRow "N" c3ShortRow = none ∧
    processRawRow "N" c3EmptyUrlRow = some (processRow "N" (strRowOf c3EmptyUrlRow)) ∧
    ((convertRawRows "N" [c3ShortRow, c3EmptyUrlRow]).2 =
       ([c3ShortRow, c3EmptyUrlRow].filter (fun r => csvRowRaises r)).length ∧
     (convertRawRows "N" [c3ShortRow, c3EmptyUrlRow]).1.length =
       ([c3ShortRow, c3EmptyUrlRow].filter (fun r => !(csvRowRaises r))).length) ∧
    (processRow "N" [("URL", " u ")]).request.url = csvUrl [("URL", " u ")] :=
  ⟨c3_amended_skip_accounting.1 tsConstT c3ItemNoUrl rfl,
   c3_amended_skip_accounting.2.1 tsConstT c3Item rfl,
   c3_amended_skip_accounting.2.2.1 tsConstT c3ItemBlankUrl (some "  ") rfl (by decide),
   c3_amended_skip_accounting.2.2.2.1 tsConstT c3ItemNoUrl [] (by decide),
   c3_amended_skip_accounting.2.2.2.2.1 "N" c3ShortRow (by decide),
   c3_amended_skip_accounting.2.2.2.2.2.1 "N" c3EmptyUrlRow (by decide),
   c3_amended_skip_accounting.2.2.2.2.2.2.1 "N" [c3ShortRow, c3EmptyUrlRow],
   c3_amended_skip_accounting.2.2.2.2.2.2.2 "N" [("URL", " u ")]⟩

/-! ## Claim C2 -/

/-- Tokens of a request start line (`split(' ')`, no maxsplit —
`src/convert_xml.py` line 121). -/
def reqFirstTokens (t : String) : List String :=
  pySplitStr (pyStrip ((pySplitStr t "\r\n").headD "")) " "

/-- Tokens of a response start line (`split(' ', 2)` — line 157). -/
def respFirstTokens (t : String) : List String :=
  pySplitMaxStr (pyStrip ((pySplitStr t "\r\n").headD "")) " " 2

/-- Counterexample to claim C2: `parse_http_response` is not raise-free — a
response whose status-code token is not an integer literal hits the unguarded
`int(parts[1])` at `src/convert_xml.py` line 163 and raises `ValueError`
instead of degrading to a default. -/
theorem c2_counterexample :
    parse_http_response "HTTP/1.1 abc OK" = RespParse.raises := by
  decide

/-- Claim C2 as amended: a start line with fewer than 3 space-separated
tokens makes both raw-message parsers return the all-`None` sentinel without
raising, and the request parser never raises; but the response parser raises
`ValueError` exactly when the start line has 3 tokens and the status token is
not a valid Python integer literal (the exception is caught by the per-item
handler, which records the item as an error and skips it). -/
theorem c2_amended_parsers :
    (∀ t : String, (reqFirstTokens t).length < 3 → parse_http_request t = none) ∧
    (∀ t : String, (respFirstTokens t).length < 3 →
       parse_http_response t = RespParse.sentinel) ∧
    (∀ t v s st : String, respFirstTokens t = [v, s, st] → pythonInt s = none →
       parse_http_response t = RespParse.raises) ∧
    (∀ (t v s st : String) (n : Int), respFirstTokens t = [v, s, st] → pythonInt s = some n →
       parse_http_response t = RespParse.ok v n st (parse_headers t) (xmlBodyOf t)) := by
  refine ⟨?_, ?_, ?_, ?_⟩
  · intro t h
    unfold reqFirstTokens at h
    simp only [parse_http_request]
    rcases hts : pySplitStr (pyStrip ((pySplitStr t "\r\n").headD "")) " " with
      _ | ⟨a, _ | ⟨b, _ | ⟨c, rest⟩⟩⟩
    · rfl
    · rfl
    · rfl
    · rw [hts] at h
      simp only [List.length_cons] at h
      omega
  · intro t h
    unfold respFirstTokens at h
    simp only [parse_http_response]
    rcases hts : pySplitMaxStr (pyStrip ((pySplitStr t "\r\n").headD "")) " " 2 with
      _ | ⟨a, _ | ⟨b, _ | ⟨c, rest⟩⟩⟩
    · rfl
    · rfl
    · rfl
    · rw [hts] at h
      simp only [List.length_cons] at h
      omega
  · intro t v s st h1 h2
    unfold respFirstTokens at h1
    simp only [parse_http_response]
    rw [h1]
    dsimp only
    rw [h2]
  · intro t v s st n h1 h2
    unfold respFirstTokens at h1
    simp only [parse_http_response]
    rw [h1]
    dsimp only
    rw [h2]

/-- Witness for `c2_amended_parsers` at concrete inputs. -/
theorem c2_parsers_witness :
    parse_http_request "GET /" = none ∧
    parse_http_response "HTTP/1.1 200" = RespParse.sentinel ∧
    parse_http_response "HTTP/1.1 two OK" = RespParse.raises ∧
    parse_http_response "HTTP/1.1 200 OK" =
      RespParse.ok "HTTP/1.1" 200 "OK" (parse_headers "HTTP/1.1 200 OK")
        (xmlBodyOf "HTTP/1.1 200 OK") :=
  ⟨c2_amended_parsers.1 "GET /" (by decide),
   c2_amended_parsers.2.1 "HTTP/1.1 200" (by decide),
   c2_amended_parsers.2.2.1 "HTTP/1.1 two OK" "HTTP/1.1" "two" "OK" (by decide) (by decide),
   c2_amended_parsers.2.2.2 "HTTP/1.1 200 OK" "HTTP/1.1" "200" "OK" 200 (by decide) (by decide)⟩

/-! ## Claim C8 -/

/-- Unsigned part of the claim-side numericality check: decimal digits with
at most one decimal point and at least one digit. -/
def digitsDotSpec (r : List Char) : Bool :=
  r.all (fun c => c.isDigit || c == '.') && r.any Char.isDigit &&
    decide (r.count '.' ≤ 1)

/-- Claim-side numericality of the cleaned string (from the spec sentence):
optionally signed — a leading minus — and optionally with one decimal
point. -/
def numericSpec (cs : List Char) : Bool :=
  match cs with
  | c :: r => if c = '-' then digitsDotSpec r else digitsDotSpec (c :: r)
  | [] => false

theorem digit_bne_dot {c : Char} (h : c.isDigit = true) : (c != '.') = true := by
  rw [bne_iff_ne]
  intro he
  subst he
  exact absurd h (by decide)

theorem dropWhile_all {p : Char → Bool} :
    ∀ l : List Char, (∀ c ∈ l, p c = true) → l.dropWhile p = [] := by
  intro l h
  induction l with
  | nil => rfl
  | cons a t ih =>
    rw [List.dropWhile_cons_of_pos (h a (by simp))]
    exact ih (fun c hc => h c (by simp [hc]))

theorem dropWhile_append_all {p : Char → Bool} :
    ∀ (l1 l2 : List Char), (∀ c ∈ l1, p c = true) →
    (l1 ++ l2).dropWhile p = l2.dropWhile p := by
  intro l1 l2 h
  induction l1 with
  | nil => rfl
  | cons a t ih =>
    rw [List.cons_append, List.dropWhile_cons_of_pos (h a (by simp))]
    exact ih (fun c hc => h c (by simp [hc]))

/-- The exact decimal value denoted by an unsigned accepted `float` literal,
written from the spec wording: the digits before the decimal point and the
digits after it, over the matching power of ten. -/
def decimalOfSpec (r : List Char) : Nat × Nat :=
  (natOfDigits (r.takeWhile (fun x => x != '.') ++ (r.dropWhile (fun x => x != '.')).drop 1),
   10 ^ ((r.dropWhile (fun x => x != '.')).drop 1).length)

/-- Claim-side value of `int(float(clean))`: the decimal value of the
unsigned part rounded to the nearest binary64 and truncated toward zero,
sign applied; `default` when the float overflows to infinity (Python's
`int()` then raises, and `safe_int` swallows it). -/
def ieeeTruncSpec (cs : List Char) (d : Int) : Int :=
  match cs with
  | c :: r =>
    if c = '-' then
      match roundFloat64 (decimalOfSpec r).1 (decimalOfSpec r).2 with
      | some q => -((truncPow2 q.1 q.2 : Nat) : Int)
      | none => d
    else
      match roundFloat64 (decimalOfSpec (c :: r)).1 (decimalOfSpec (c :: r)).2 with
      | some q => ((truncPow2 q.1 q.2 : Nat) : Int)
      | none => d
  | [] => d

/-- Cleaned strings that are plain integers: an optional leading minus sign,
then only digits. -/
def intOnlySpec (cs : List Char) : Bool :=
  match cs with
  | c :: r => if c = '-' then (!r.isEmpty) && r.all Char.isDigit else (c :: r).all Char.isDigit
  | [] => false

/-- The digit part of a cleaned integer string (leading minus removed). -/
def digitsOf (cs : List Char) : List Char :=
  match cs with
  | c :: r => if c = '-' then r else c :: r
  | [] => []

/-- Exact signed value of a cleaned integer string. -/
def intValSpec (cs : List Char) : Int :=
  match cs with
  | c :: r => if c = '-' then -((natOfDigits r : Nat) : Int) else ((natOfDigits (c :: r) : Nat) : Int)
  | [] => 0

theorem floatBody_eq_decimal (r : List Char) (h : digitsDotSpec r = true) :
    floatBody r = some (decimalOfSpec r) := by
  simp only [digitsDotSpec, Bool.and_eq_true, decide_eq_true_eq] at h
  obtain ⟨⟨hall, hany⟩, hcnt⟩ := h
  have hall' : ∀ c ∈ r, (c.isDigit || c == '.') = true := List.all_eq_true.mp hall
  have hdec : r = r.takeWhile Char.isDigit ++ r.dropWhile Char.isDigit :=
    (List.takeWhile_append_dropWhile Char.isDigit r).symm
  cases hrest : r.dropWhile Char.isDigit with
  | nil =>
    have hr_eq : r.takeWhile Char.isDigit = r := by
      rw [hrest, List.append_nil] at hdec
      exact hdec.symm
    have hne : r ≠ [] := by
      rcases List.any_eq_true.mp hany with ⟨c, hcmem, _⟩
      intro he
      subst he
      simp at hcmem
    have hemp : r.isEmpty = false := by
      cases r with
      | nil => exact absurd rfl hne
      | cons _ _ => rfl
    have hdig : ∀ x ∈ r, x.isDigit = true := by
      intro x hx
      exact mem_takeWhile_sat r x (by rw [hr_eq]; exact hx)
    have hbne : ∀ x ∈ r, (x != '.') = true := fun x hx => digit_bne_dot (hdig x hx)
    simp only [floatBody, hrest]
    rw [hr_eq]
    rw [if_neg (by rw [hemp]; simp)]
    simp only [decimalOfSpec]
    rw [takeWhile_all r hbne, dropWhile_all r hbne]
    simp
  | cons c fp =>
    have hchead : Char.isDigit c = false := head_dropWhile_not Char.isDigit r c (by rw [hrest]; simp)
    have hcmem : c ∈ r := mem_dropWhile_mem r c (by rw [hrest]; simp)
    have hcdot : c = '.' := by
      have h2 := hall' c hcmem
      rw [hchead] at h2
      simpa using h2
    subst hcdot
    rw [hrest] at hdec
    have hipdig : ∀ x ∈ r.takeWhile Char.isDigit, x.isDigit = true :=
      fun x hx => mem_takeWhile_sat r x hx
    have hipcnt : (r.takeWhile Char.isDigit).count '.' = 0 :=
      List.count_eq_zero.mpr (fun hmem => absurd (hipdig '.' hmem) (by decide))
    have hcount : r.count '.' =
        (r.takeWhile Char.isDigit).count '.' + (fp.count '.' + 1) := by
      conv_lhs => rw [hdec]
      rw [List.count_append, List.count_cons_self]
    have hfpcnt : fp.count '.' = 0 := by omega
    have hfpdig : ∀ x ∈ fp, x.isDigit = true := by
      intro x hx
      have hxr : x ∈ r := by rw [hdec]; simp [hx]
      have h2 := hall' x hxr
      have h3 : x.isDigit = true ∨ x = '.' := by simpa using h2
      rcases h3 with hd | hdot
      · exact hd
      · exfalso
        subst hdot
        exact absurd hx (List.count_eq_zero.mp hfpcnt)
    have hne_both : ((r.takeWhile Char.isDigit).isEmpty && fp.isEmpty) = false := by
      rcases List.any_eq_true.mp hany with ⟨x, hxmem, hxdig⟩
      rw [hdec] at hxmem
      rcases List.mem_append.mp hxmem with hin | hin
      · have h3 : (r.takeWhile Char.isDigit).isEmpty = false := by
          cases h4 : r.takeWhile Char.isDigit with
          | nil => rw [h4] at hin; simp at hin
          | cons _ _ => rfl
        simp [h3]
      · rcases List.mem_cons.mp hin with rfl | hin2
        · exact absurd hxdig (by decide)
        · have h3 : fp.isEmpty = false := by
            cases h4 : fp with
            | nil => rw [h4] at hin2; simp at hin2
            | cons _ _ => rfl
          simp [h3]
    have hcond : ((!((r.takeWhile Char.isDigit).isEmpty && fp.isEmpty)) &&
        fp.all Char.isDigit) = true := by
      rw [hne_both]
      simp [List.all_eq_true.mpr hfpdig]
    have htw : r.takeWhile (fun x => x != '.') = r.takeWhile Char.isDigit := by
      conv_lhs => rw [hdec]
      exact takeWhile_append_head_neg _ _
        (fun x hx => digit_bne_dot (hipdig x hx))
        (by intro x hx; simp only [List.head?_cons, Option.mem_def, Option.some.injEq] at hx
            subst hx; decide)
    have hdw : r.dropWhile (fun x => x != '.') = '.' :: fp := by
      conv_lhs => rw [hdec]
      rw [dropWhile_append_all _ _ (fun x hx => digit_bne_dot (hipdig x hx))]
      rw [List.dropWhile_cons_of_neg (by decide)]
    simp only [floatBody, hrest]
    rw [if_pos trivial, if_pos hcond]
    simp only [decimalOfSpec]
    rw [htw, hdw]
    simp

theorem digitsDot_of_floatBody (r : List Char) (p : Nat × Nat)
    (h : floatBody r = some p) : digitsDotSpec r = true := by
  have hdec : r = r.takeWhile Char.isDigit ++ r.dropWhile Char.isDigit :=
    (List.takeWhile_append_dropWhile Char.isDigit r).symm
  have hipdig : ∀ x ∈ r.takeWhile Char.isDigit, x.isDigit = true :=
    fun x hx => mem_takeWhile_sat r x hx
  cases hrest : r.dropWhile Char.isDigit with
  | nil =>
    have hr_eq : r.takeWhile Char.isDigit = r := by
      rw [hrest, List.append_nil] at hdec
      exact hdec.symm
    simp only [floatBody, hrest] at h
    by_cases hemp : (r.takeWhile Char.isDigit).isEmpty = true
    · rw [if_pos hemp] at h
      exact absurd h (by simp)
    · have hrne : r ≠ [] := by
        intro he
        subst he
        simp at hemp
      have hdig : ∀ x ∈ r, x.isDigit = true := by
        intro x hx
        exact hipdig x (by rw [hr_eq]; exact hx)
      simp only [digitsDotSpec, Bool.and_eq_true, decide_eq_true_eq]
      refine ⟨⟨List.all_eq_true.mpr (fun x hx => by rw [hdig x hx]; rfl), ?_⟩, ?_⟩
      · rcases r with _ | ⟨a, t⟩
        · exact absurd rfl hrne
        · exact List.any_eq_true.mpr ⟨a, by simp, hdig a (by simp)⟩
      · have hc0 : r.count '.' = 0 :=
          List.count_eq_zero.mpr (fun hmem => absurd (hdig '.' hmem) (by decide))
        omega
  | cons c fp =>
    simp only [floatBody, hrest] at h
    by_cases hcdot : c = '.'
    · subst hcdot
      rw [if_pos rfl] at h
      by_cases hcond : ((!((r.takeWhile Char.isDigit).isEmpty && fp.isEmpty)) &&
          fp.all Char.isDigit) = true
      · rw [if_pos hcond] at h
        rw [hrest] at hdec
        simp only [Bool.and_eq_true, Bool.not_eq_eq_eq_not, Bool.not_true] at hcond
        obtain ⟨hnb, hfpall⟩ := hcond
        have hfpdig : ∀ x ∈ fp, x.isDigit = true := List.all_eq_true.mp hfpall
        simp only [digitsDotSpec, Bool.and_eq_true, decide_eq_true_eq]
        refine ⟨⟨?_, ?_⟩, ?_⟩
        · refine List.all_eq_true.mpr ?_
          intro x hx
          rw [hdec] at hx
          rcases List.mem_append.mp hx with hin | hin
          · rw [hipdig x hin]; rfl
          · rcases List.mem_cons.mp hin with rfl | hin2
            · simp
            · rw [hfpdig x hin2]; rfl
        · rcases h4 : r.takeWhile Char.isDigit with _ | ⟨a, t⟩
          · rcases h5 : fp with _ | ⟨b, u⟩
            · exfalso
              rw [h4, h5] at hnb
              simp at hnb
            · refine List.any_eq_true.mpr ⟨b, ?_, hfpdig b (by rw [h5]; simp)⟩
              rw [hdec, h5]
              simp
          · refine List.any_eq_true.mpr ⟨a, ?_, hipdig a (by rw [h4]; simp)⟩
            rw [hdec, h4]
            simp
        · have hipcnt : (r.takeWhile Char.isDigit).count '.' = 0 :=
            List.count_eq_zero.mpr (fun hmem => absurd (hipdig '.' hmem) (by decide))
          have hfpcnt : fp.count '.' = 0 :=
            List.count_eq_zero.mpr (fun hmem => absurd (hfpdig '.' hmem) (by decide))
          have hcount : r.count '.' =
              (r.takeWhile Char.isDigit).count '.' + (fp.count '.' + 1) := by
            conv_lhs => rw [hdec]
            rw [List.count_append, List.count_cons_self]
          omega
      · rw [if_neg hcond] at h
        exact absurd h (by simp)
    · rw [if_neg hcdot] at h
      exact absurd h (by simp)

theorem removeAll_cons_self (c : Char) (t : List Char) :
    removeAll (c :: t) c = removeAll t c := by
  simp only [removeAll, List.filter_cons]
  rw [if_neg (by simp)]

theorem nodash_of_digitsDot (t : List Char) (h : digitsDotSpec t = true) :
    removeAll t '-' = t := by
  simp only [digitsDotSpec, Bool.and_eq_true] at h
  refine List.filter_eq_self.mpr ?_
  intro x hx
  have h2 : x.isDigit = true ∨ x = '.' := by
    simpa using List.all_eq_true.mp h.1.1 x hx
  rw [bne_iff_ne]
  rcases h2 with hd | rfl
  · intro he; subst he; exact absurd hd (by decide)
  · decide

theorem gate_of_digitsDot (t : List Char) (h : digitsDotSpec t = true) :
    isdigitL (removeAll t '.') = true := by
  simp only [digitsDotSpec, Bool.and_eq_true, decide_eq_true_eq] at h
  obtain ⟨⟨hall, hany⟩, _⟩ := h
  simp only [isdigitL, Bool.and_eq_true]
  constructor
  · rcases List.any_eq_true.mp hany with ⟨x, hx, hxd⟩
    have hxf : x ∈ removeAll t '.' :=
      List.mem_filter.mpr ⟨hx, digit_bne_dot hxd⟩
    cases hrem : removeAll t '.' with
    | nil => rw [hrem] at hxf; simp at hxf
    | cons _ _ => rfl
  · refine List.all_eq_true.mpr ?_
    intro x hx
    obtain ⟨hxt, hxne⟩ := List.mem_filter.mp hx
    have h2 : x.isDigit = true ∨ x = '.' := by
      simpa using List.all_eq_true.mp hall x hxt
    rcases h2 with hd | rfl
    · exact hd
    · exact absurd hxne (by decide)

theorem roundHalfEven_one (m : Nat) : roundHalfEven m 1 = m := by
  simp [roundHalfEven, Nat.mod_one, Nat.div_one]

theorem log2Aux_pow_le : ∀ (fuel n : Nat), 1 ≤ n → n ≤ fuel → 2 ^ log2Aux fuel n ≤ n := by
  intro fuel
  induction fuel with
  | zero =>
    intro n h1 h2
    simpa [log2Aux] using h1
  | succ fuel ih =>
    intro n h1 h2
    by_cases h2n : 2 ≤ n
    · have hrec := ih (n / 2) (by omega) (by omega)
      have hstep : log2Aux (fuel + 1) n = log2Aux fuel (n / 2) + 1 := by
        rw [log2Aux, if_pos h2n]
      rw [hstep, pow_succ]
      have hdm : n / 2 * 2 ≤ n := Nat.div_mul_le_self n 2
      exact le_trans (Nat.mul_le_mul_right 2 hrec) hdm
    · have hstep : log2Aux (fuel + 1) n = 0 := by
        rw [log2Aux, if_neg h2n]
      rw [hstep]
      simpa using h1

theorem natLog2_pow_le (n : Nat) (h : 1 ≤ n) : 2 ^ natLog2 n ≤ n :=
  log2Aux_pow_le n n h le_rfl

theorem roundFloat64_exact_small (n : Nat) (h : n < 2 ^ 53) :
    (roundFloat64 n 1).map (fun q => truncPow2 q.1 q.2) = some n := by
  by_cases hn : n = 0
  · subst hn
    decide
  · have h1 : 1 ≤ n := Nat.one_le_iff_ne_zero.mpr hn
    have hE : ratFloorLog2 n 1 = (natLog2 n : Int) := by
      rw [ratFloorLog2, if_pos h1, Nat.div_one]
    have hlog : natLog2 n ≤ 52 := by
      by_contra hgt
      push_neg at hgt
      have hle := natLog2_pow_le n h1
      have h2 : (2 : Nat) ^ 53 ≤ 2 ^ natLog2 n := Nat.pow_le_pow_right (by norm_num) hgt
      omega
    have hnoclamp : ¬((natLog2 n : Int) < -1022) := by omega
    simp only [roundFloat64, if_neg hn, hE, if_neg hnoclamp]
    set L := natLog2 n with hL
    have ht : ((L : Int) - 52 ≤ 0) := by omega
    rw [if_pos ht]
    have htn : (-((L : Int) - 52)).toNat = 52 - L := by omega
    rw [htn, roundHalfEven_one]
    by_cases hL52 : L = 52
    · have ht0 : (0 : Int) ≤ (L : Int) - 52 := by omega
      rw [if_pos ht0]
      have he0 : ((L : Int) - 52).toNat = 0 := by omega
      have hk0 : 52 - L = 0 := by omega
      rw [hk0, he0]
      simp only [pow_zero, Nat.mul_one]
      have hlt : n < 2 ^ 1024 := by
        have : (2 : Nat) ^ 53 ≤ 2 ^ 1024 := Nat.pow_le_pow_right (by norm_num) (by norm_num)
        omega
      rw [if_pos hlt]
      simp [truncPow2, ht0, he0]
    · have htneg : ¬((0 : Int) ≤ (L : Int) - 52) := by omega
      rw [if_neg htneg]
      simp only [Option.map_some']
      have : truncPow2 (n * 2 ^ (52 - L)) ((L : Int) - 52) = n := by
        rw [truncPow2, if_neg htneg, htn]
        exact Nat.mul_div_cancel n (Nat.pos_pow_of_pos _ (by norm_num))
      rw [this]

theorem digitsDot_of_digits (t : List Char) (hne : t ≠ [])
    (hall : t.all Char.isDigit = true) : digitsDotSpec t = true := by
  have hd := List.all_eq_true.mp hall
  simp only [digitsDotSpec, Bool.and_eq_true, decide_eq_true_eq]
  refine ⟨⟨List.all_eq_true.mpr (fun x hx => by rw [hd x hx]; rfl), ?_⟩, ?_⟩
  · rcases t with _ | ⟨a, u⟩
    · exact absurd rfl hne
    · exact List.any_eq_true.mpr ⟨a, by simp, hd a (by simp)⟩
  · have hc0 : t.count '.' = 0 :=
      List.count_eq_zero.mpr (fun hmem => absurd (hd '.' hmem) (by decide))
    omega

theorem intOnly_numeric (cs : List Char) (h : intOnlySpec cs = true) :
    numericSpec cs = true := by
  cases cs with
  | nil => simp [intOnlySpec] at h
  | cons c r =>
    by_cases hc : c = '-'
    · subst hc
      rw [intOnlySpec, if_pos rfl] at h
      simp only [Bool.and_eq_true, Bool.not_eq_eq_eq_not, Bool.not_false] at h
      rw [numericSpec, if_pos rfl]
      exact digitsDot_of_digits r (by
        intro he
        rw [he] at h
        simp at h) h.2
    · rw [intOnlySpec, if_neg hc] at h
      rw [numericSpec, if_neg hc]
      exact digitsDot_of_digits (c :: r) (by simp) h

theorem digits_decimal (t : List Char) (hall : t.all Char.isDigit = true) :
    decimalOfSpec t = (natOfDigits t, 1) := by
  have h' : ∀ c ∈ t, (c != '.') = true :=
    fun c hc => digit_bne_dot (List.all_eq_true.mp hall c hc)
  simp only [decimalOfSpec]
  rw [takeWhile_all t h', dropWhile_all t h']
  simp

theorem safe_int_eq_ieee (s : String) (d : Int) (hs : s ≠ "")
    (hnum : numericSpec (cleanOf s) = true) :
    safe_int (some s) d = ieeeTruncSpec (cleanOf s) d := by
  simp only [safe_int]
  rw [if_neg hs]
  rcases hcs : cleanOf s with _ | ⟨c, r⟩
  · rw [hcs] at hnum
    simp [numericSpec] at hnum
  · rw [hcs] at hnum
    by_cases hc : c = '-'
    · subst hc
      have h' : digitsDotSpec r = true := by simpa [numericSpec] using hnum
      have hgate : isdigitL (removeAll (removeAll ('-' :: r) '-') '.') = true := by
        rw [removeAll_cons_self, nodash_of_digitsDot r h']
        exact gate_of_digitsDot r h'
      rw [if_pos hgate]
      have hpft : pyFloatTruncL ('-' :: r) =
          (roundFloat64 (decimalOfSpec r).1 (decimalOfSpec r).2).map
            (fun q => -((truncPow2 q.1 q.2 : Nat) : Int)) := by
        simp [pyFloatTruncL, floatBody_eq_decimal r h']
      rw [hpft, ieeeTruncSpec, if_pos rfl]
      cases hrf : roundFloat64 (decimalOfSpec r).1 (decimalOfSpec r).2 with
      | none => rfl
      | some q => rfl
    · have h' : digitsDotSpec (c :: r) = true := by simpa [numericSpec, hc] using hnum
      have hcp : c ≠ '+' := by
        intro he
        subst he
        simp only [digitsDotSpec, Bool.and_eq_true] at h'
        have h2 := List.all_eq_true.mp h'.1.1 '+' (by simp)
        simp only [Bool.or_eq_true, beq_iff_eq] at h2
        rcases h2 with hd | hdot
        · exact absurd hd (by decide)
        · exact absurd hdot (by decide)
      have hgate : isdigitL (removeAll (removeAll (c :: r) '-') '.') = true := by
        rw [nodash_of_digitsDot (c :: r) h']
        exact gate_of_digitsDot (c :: r) h'
      rw [if_pos hgate]
      have hpft : pyFloatTruncL (c :: r) =
          (roundFloat64 (decimalOfSpec (c :: r)).1 (decimalOfSpec (c :: r)).2).map
            (fun q => ((truncPow2 q.1 q.2 : Nat) : Int)) := by
        simp [pyFloatTruncL, hc, hcp, floatBody_eq_decimal (c :: r) h']
      rw [hpft, ieeeTruncSpec, if_neg hc]
      cases hrf : roundFloat64 (decimalOfSpec (c :: r)).1 (decimalOfSpec (c :: r)).2 with
      | none => rfl
      | some q => rfl

theorem numericSpec_of_gate_and_float (cs : List Char) (n : Int)
    (hg : isdigitL (removeAll (removeAll cs '-') '.') = true)
    (hf : pyFloatTruncL cs = some n) : numericSpec cs = true := by
  cases cs with
  | nil => simp [pyFloatTruncL] at hf
  | cons c r =>
    by_cases hc : c = '-'
    · subst hc
      have hred : pyFloatTruncL ('-' :: r) =
          (floatBody r).bind fun p =>
            (roundFloat64 p.1 p.2).map fun q => -((truncPow2 q.1 q.2 : Nat) : Int) := by
        simp [pyFloatTruncL]
      rw [hred] at hf
      cases hfb : floatBody r with
      | none => rw [hfb] at hf; simp at hf
      | some p =>
        have hspec := digitsDot_of_floatBody r p hfb
        simpa [numericSpec] using hspec
    · by_cases hcp : c = '+'
      · exfalso
        subst hcp
        have e1 : removeAll ('+' :: r) '-' = '+' :: removeAll r '-' := by
          simp only [removeAll, List.filter_cons]
          rw [if_pos (by decide)]
        have e2 : removeAll ('+' :: removeAll r '-') '.' =
            '+' :: removeAll (removeAll r '-') '.' := by
          simp only [removeAll, List.filter_cons]
          rw [if_pos (by decide)]
        rw [e1, e2] at hg
        have hplus : ('+' : Char).isDigit = false := by decide
        simp [isdigitL, List.all_cons, hplus] at hg
      · have hred : pyFloatTruncL (c :: r) =
            (floatBody (c :: r)).bind fun p =>
              (roundFloat64 p.1 p.2).map fun q => ((truncPow2 q.1 q.2 : Nat) : Int) := by
          simp [pyFloatTruncL, hc, hcp]
        rw [hred] at hf
        cases hfb : floatBody (c :: r) with
        | none => rw [hfb] at hf; simp at hf
        | some p =>
          have hspec := digitsDot_of_floatBody (c :: r) p hfb
          simpa [numericSpec, hc] using hspec

theorem safe_int_default_of_not_numeric (s : String) (d : Int) (hs : s ≠ "")
    (hnum : numericSpec (cleanOf s) = false) : safe_int (some s) d = d := by
  simp only [safe_int]
  rw [if_neg hs]
  by_cases hgate : isdigitL (removeAll (removeAll (cleanOf s) '-') '.') = true
  · rw [if_pos hgate]
    cases hf : pyFloatTruncL (cleanOf s) with
    | none => rfl
    | some n =>
      exfalso
      have hns := numericSpec_of_gate_and_float (cleanOf s) n hgate hf
      rw [hnum] at hns
      exact absurd hns (by simp)
  · rw [if_neg hgate]

theorem safe_int_exact_int (s : String) (d : Int) (hs : s ≠ "")
    (hint : intOnlySpec (cleanOf s) = true)
    (hsmall : natOfDigits (digitsOf (cleanOf s)) < 2 ^ 53) :
    safe_int (some s) d = intValSpec (cleanOf s) := by
  rw [safe_int_eq_ieee s d hs (intOnly_numeric _ hint)]
  rcases hcs : cleanOf s with _ | ⟨c, r⟩
  · rw [hcs] at hint
    simp [intOnlySpec] at hint
  · rw [hcs] at hint hsmall
    by_cases hc : c = '-'
    · subst hc
      rw [intOnlySpec, if_pos rfl] at hint
      simp only [Bool.and_eq_true, Bool.not_eq_eq_eq_not, Bool.not_false] at hint
      have hsm : natOfDigits r < 2 ^ 53 := by
        have hdg : digitsOf ('-' :: r) = r := by rw [digitsOf, if_pos rfl]
        rw [hdg] at hsmall
        exact hsmall
      rw [ieeeTruncSpec, if_pos rfl, digits_decimal r hint.2]
      have hex := roundFloat64_exact_small (natOfDigits r) hsm
      cases hrf : roundFloat64 (natOfDigits r) 1 with
      | none => rw [hrf] at hex; simp at hex
      | some q =>
        rw [hrf] at hex
        simp only [Option.map_some', Option.some.injEq] at hex
        rw [intValSpec, if_pos rfl]
        simp [hex]
    · rw [intOnlySpec, if_neg hc] at hint
      have hsm : natOfDigits (c :: r) < 2 ^ 53 := by
        have hdg : digitsOf (c :: r) = c :: r := by rw [digitsOf, if_neg hc]
        rw [hdg] at hsmall
        exact hsmall
      rw [ieeeTruncSpec, if_neg hc, digits_decimal (c :: r) hint]
      have hex := roundFloat64_exact_small (natOfDigits (c :: r)) hsm
      cases hrf : roundFloat64 (natOfDigits (c :: r)) 1 with
      | none => rw [hrf] at hex; simp at hex
      | some q =>
        rw [hrf] at hex
        simp only [Option.map_some', Option.some.injEq] at hex
        rw [intValSpec, if_neg hc]
        simp [hex]

set_option maxRecDepth 4000 in
/-- Counterexample to claim C8: `int(float(clean))` rounds.  The code gives
`safe_int("9007199254740993") = 9007199254740992` — the decimal is numeric
and within the claimed path, yet the result is not the comma-stripped value
`9007199254740993` truncated to an integer, because `float()` rounds
`2^53 + 1` to `2^53`; likewise `safe_int("1.9999999999999999") = 2`, not the
truncation `1`. -/
theorem c8_counterexample :
    numericSpec (cleanOf "9007199254740993") = true ∧
    safe_int (some "9007199254740993") 0 = 9007199254740992 ∧
    numericSpec (cleanOf "1.9999999999999999") = true ∧
    safe_int (some "1.9999999999999999") 0 = 2 := by
  exact ⟨by decide, by decide, by decide, by decide⟩

/-- Claim C8 as amended: `safe_int(value, default)` returns `default` for
`None` or empty input; when the stripped, comma-stripped string is numeric —
optionally a leading minus sign, digits, at most one decimal point — it
returns `int(float(clean))`: the decimal value rounded to the nearest
IEEE-754 binary64 (ties to even; overflow to infinity makes `int()` raise
and the default is returned) and then truncated toward zero, which equals
the comma-stripped value truncated to an integer whenever that string is a
plain integer of magnitude below 2^53 — in particular
`safe_int("1,234") = 1234`; any other input returns `default` without
raising, e.g. `safe_int("abc", 0) = 0`. -/
theorem c8_amended_safe_int :
    (∀ d : Int, safe_int none d = d) ∧
    (∀ d : Int, safe_int (some "") d = d) ∧
    (∀ (s : String) (d : Int), s ≠ "" → numericSpec (cleanOf s) = true →
       safe_int (some s) d = ieeeTruncSpec (cleanOf s) d) ∧
    (∀ (s : String) (d : Int), s ≠ "" → numericSpec (cleanOf s) = false →
       safe_int (some s) d = d) ∧
    (∀ (s : String) (d : Int), s ≠ "" → intOnlySpec (cleanOf s) = true →
       natOfDigits (digitsOf (cleanOf s)) < 2 ^ 53 →
       safe_int (some s) d = intValSpec (cleanOf s)) ∧
    safe_int (some "1,234") 0 = 1234 ∧
    safe_int (some "abc") 0 = 0 :=
  ⟨fun _ => rfl, fun d => by simp [safe_int], safe_int_eq_ieee,
   safe_int_default_of_not_numeric, safe_int_exact_int, by decide, by decide⟩

/-- Witness for `c8_amended_safe_int` at concrete inputs. -/
theorem c8_amended_safe_int_witness :
    safe_int (some " -12.75 ") 0 = ieeeTruncSpec (cleanOf " -12.75 ") 0 ∧
    safe_int (some "1-2") 7 = 7 ∧
    safe_int (some "1,234") 5 = intValSpec (cleanOf "1,234") :=
  ⟨c8_amended_safe_int.2.2.1 " -12.75 " 0 (by decide) (by decide),
   c8_amended_safe_int.2.2.2.1 "1-2" 7 (by decide) (by decide),
   c8_amended_safe_int.2.2.2.2.1 "1,234" 5 (by decide) (by decide) (by decide)⟩
